import Mathlib

/-!
Shallow embedding of the core of the altb version/alias manager
(src/altb/service.py, src/altb/model/config.py, src/altb/model/tags.py,
src/altb/migrator/migrator.py and friends), together with proofs about the
behaviour the specification claims.

Conventions of the embedding:
* Python dicts are association lists (`List (String × α)`); Python dicts keep
  insertion order, updating an existing key keeps its position, and a fresh key
  is appended at the end.  Keys of reachable dicts are unique, so erasing is
  modelled as filtering the key out.
* `pathlib.Path` values are modelled as their (already normalised) string form.
* The filesystem is an association list from paths to entries (regular file
  with content and permission mode, or symbolic link with its target).
  Directories are not modelled (`os.makedirs` calls have no observable effect
  on any behaviour treated here).
* Methods of `AltbService` mutate `self.config` and the filesystem in place; the
  embedding passes a state record explicitly.  A raised exception is an
  `Except.error` that carries the state at the moment of the raise, so that
  partial mutation before a failure stays observable.
-/

set_option linter.unusedVariables false

namespace Altb

/-! ## Association lists (Python dict model) -/

/-- Python dict lookup: first (and in reachable states only) binding of a key. -/
def alookup {α : Type} : List (String × α) → String → Option α
  | [], _ => none
  | p :: rest, k => if p.1 = k then some p.2 else alookup rest k

/-- Python dict assignment: update an existing key in place (keeping its
position), or append a fresh key at the end. -/
def aset {α : Type} : List (String × α) → String → α → List (String × α)
  | [], k, v => [(k, v)]
  | p :: rest, k, v => if p.1 = k then (k, v) :: rest else p :: aset rest k v

/-- Python dict deletion of a key (`del d[k]`). -/
def aerase {α : Type} (l : List (String × α)) (k : String) : List (String × α) :=
  l.filter (fun p => p.1 ≠ k)

/-- Keys of a dict, in order. -/
def akeys {α : Type} (l : List (String × α)) : List String :=
  l.map Prod.fst

/-- Well-formedness of a dict: keys are unique (always true of Python dicts). -/
def NodupKeys {α : Type} (l : List (String × α)) : Prop :=
  (akeys l).Nodup

instance {α : Type} (l : List (String × α)) : Decidable (NodupKeys l) :=
  inferInstanceAs (Decidable (akeys l).Nodup)

/-- View of an Except as a Sum, to transport decidable equality. -/
def exceptToSum {ε α : Type} : Except ε α → Sum ε α
  | .error e => .inl e
  | .ok a => .inr a

instance {ε α : Type} [DecidableEq ε] [DecidableEq α] : DecidableEq (Except ε α) :=
  fun a b =>
    decidable_of_iff (exceptToSum a = exceptToSum b)
      (by cases a <;> cases b <;> simp [exceptToSum])

/-! ## Filesystem model -/

/-- Paths are modelled as normalised strings. -/
abbrev FPath := String

/-- One filesystem object: a regular file (content, permission mode) or a
symbolic link with its raw target. -/
inductive FSEntry : Type
  | file (content : String) (mode : Nat)
  | symlink (target : FPath)
  deriving Repr, DecidableEq

/-- The filesystem: a finite map from paths to entries. -/
abbrev FS := List (FPath × FSEntry)

/-- Maximum symlink hops the kernel follows before ELOOP. -/
def maxSymlinkHops : Nat := 40

/-- Presence of the path itself, symlinks not followed (`os.lstat` view);
this is what `pathlib.Path.symlink_to` checks before failing. -/
def lexistsFS (fs : FS) (p : FPath) : Bool :=
  (alookup fs p).isSome

/-- Python `Path.is_symlink()`. -/
def isSymlinkFS (fs : FS) (p : FPath) : Bool :=
  match alookup fs p with
  | some (.symlink _) => true
  | _ => false

/-- Python `Path.readlink()`. -/
def readlinkFS (fs : FS) (p : FPath) : Option FPath :=
  match alookup fs p with
  | some (.symlink t) => some t
  | _ => none

/-- Symlink-following existence with fuel; `Path.exists()` returns `False`
both for a missing file and when the chain loops (ELOOP is swallowed). -/
def existsFuel (fs : FS) : Nat → FPath → Bool
  | 0, _ => false
  | n + 1, p =>
    match alookup fs p with
    | none => false
    | some (.file _ _) => true
    | some (.symlink t) => existsFuel fs n t

/-- Python `Path.exists()` (follows symlinks). -/
def pexists (fs : FS) (p : FPath) : Bool :=
  existsFuel fs maxSymlinkHops p

/-- Resolve the symlink chain at a path for an `open(p, "w")`-style access:
the final non-symlink path is returned (it may not exist yet — opening
creates it there), `none` models an ELOOP failure. -/
def resolveFuel (fs : FS) : Nat → FPath → Option FPath
  | 0, _ => none
  | n + 1, p =>
    match alookup fs p with
    | some (.symlink t) => resolveFuel fs n t
    | _ => some p

/-- Write a file through symlinks (`open(p, "w")` + write): the chain is
resolved and the final path receives the content. -/
def writeThrough (fs : FS) (p : FPath) (content : String) (mode : Nat) : Option FS :=
  match resolveFuel fs maxSymlinkHops p with
  | none => none
  | some real => some (aset fs real (.file content mode))

/-- Python `shutil.copy(src, dst)`: content and permission bits of the resolved
source are written at the resolved destination. -/
def copyFileFS (fs : FS) (src dst : FPath) : Option FS :=
  match resolveFuel fs maxSymlinkHops src with
  | none => none
  | some rs =>
    match alookup fs rs with
    | some (.file content mode) =>
      match resolveFuel fs maxSymlinkHops dst with
      | none => none
      | some rd => some (aset fs rd (.file content mode))
    | _ => none

/-- Python `os.chmod(p, mode)` (follows symlinks). -/
def chmodFS (fs : FS) (p : FPath) (mode : Nat) : Option FS :=
  match resolveFuel fs maxSymlinkHops p with
  | none => none
  | some real =>
    match alookup fs real with
    | some (.file content _) => some (aset fs real (.file content mode))
    | _ => none

/-! ## Configuration data model (src/altb/model/tags.py, src/altb/model/config.py) -/

/-- altb.model.tags.LinkTagSpec: `path: pathlib.Path`,
`is_copy: Optional[StrictBool] = False`. -/
structure LinkTagSpec where
  path : FPath
  is_copy : Option Bool
  deriving Repr, DecidableEq

/-- altb.model.tags.CommandTagSpec: `command: str`,
`working_directory: Optional[pathlib.Path]`,
`env: Optional[dict[StrictStr, StrictStr]] = None`. -/
structure CommandTagSpec where
  command : String
  working_directory : Option FPath
  env : Option (List (String × String))
  deriving Repr, DecidableEq

/-- altb.model.tags.TagConfig: the discriminated union of LinkTag and
CommandTag; `kind` is the constructor, `description` the shared field. -/
inductive TagConfig : Type
  | link (description : Option String) (spec : LinkTagSpec)
  | command (description : Option String) (spec : CommandTagSpec)
  deriving Repr, DecidableEq

/-- altb.model.config.BinaryStruct. -/
structure BinaryStruct where
  name : String
  tags : List (String × TagConfig)
  selected : Option String
  deriving Repr, DecidableEq

/-- altb.model.config.AppConfig. -/
structure AppConfig where
  binaries : List (String × BinaryStruct)
  deriving Repr, DecidableEq

/-- altb.model.settings.Settings, reduced to the two resolved paths the
service operations read. -/
structure Settings where
  binResolvedPath : FPath
  versionsPath : FPath
  deriving Repr, DecidableEq

/-- The mutable state an `AltbService` instance closes over after its
configuration is loaded: the in-memory document plus the filesystem. -/
structure St where
  settings : Settings
  config : AppConfig
  fs : FS
  deriving Repr, DecidableEq

/-- Exceptions raised by the service layer.  Each constructor corresponds to
one raise site (all are `RichValueError` except `fileExistsErr`, which is the
uncaught `FileExistsError` out of `Path.symlink_to`, and `eloop`, the OSError
for a looping symlink chain). -/
inductive Err : Type
  | appNotTracked (appName : String)
  | tagNotExist (appName tag : String)
  | pathNotExist (p : FPath)
  | copyDestExists (p : FPath)
  | pathAlreadyTracked (p : FPath) (tag appName : String)
  | driftDetected (p : FPath)
  | notASymlink (p : FPath)
  | noSelectedTag (appName : String)
  | wrongTagKind (appName tag : String)
  | workingDirNotExist (p : FPath) (tag appName : String)
  | fileExistsErr (p : FPath)
  | eloop (p : FPath)
  | keyError (k : String)
  | shlexNoClosingQuotation
  | shlexNoEscapedCharacter
  deriving Repr, DecidableEq

/-- PACKAGE_NAME from altb/common/constants.py. -/
def PACKAGE_NAME : String := "altb"

/-! ## Service operations (src/altb/service.py)

Every method returns `Except (Err × St) St`: an error carries the state at
the moment of the raise (Python mutates in place, so partial mutation before
an exception is visible to the caller and to `__exit__`). -/

/-- AltbService._get_destination_for (the `os.makedirs` of the bin directory
has no effect in a model without directories). -/
def destinationFor (st : St) (app : BinaryStruct) : FPath :=
  st.settings.binResolvedPath ++ "/" ++ app.name

/-- Shim script written for a command tag. -/
def shimContent (appName : String) : String :=
  "#!/bin/sh\n" ++ PACKAGE_NAME ++ " run " ++ appName ++ " -- \"$@\"\n"

/-- AltbService._assert_selected_owned_reference: pure check, raises on
drift.  Returns the exception to raise, if any. -/
def assertSelectedOwnedReference (st : St) (app : BinaryStruct) : Option Err :=
  match app.selected with
  | none => none
  | some selectedTag =>
    match alookup app.tags selectedTag with
    | none => some (.keyError selectedTag)
    | some (.command _ _) => none
    | some (.link _ spec) =>
      let destination := destinationFor st app
      match alookup st.fs destination with
      | some (.symlink actualLink) =>
        if spec.path ≠ actualLink then some (.driftDetected destination) else none
      | _ => some (.notASymlink destination)

/-- AltbService._unselect_current_tag (the argument app is an alias of
`self.config.binaries[appName]`, so it is re-read from the state). -/
def unselectCurrentTag (st : St) (appName : String) : Except (Err × St) St :=
  match alookup st.config.binaries appName with
  | none => .error (.keyError appName, st)
  | some app =>
    match assertSelectedOwnedReference st app with
    | some e => .error (e, st)
    | none =>
      let destination := destinationFor st app
      let fs1 :=
        if pexists st.fs destination then
          -- a symlink is unlinked, a regular file is os.remove-d: both delete
          -- the entry at the destination path
          if isSymlinkFS st.fs destination then aerase st.fs destination
          else aerase st.fs destination
        else st.fs
      let app1 := { app with selected := none }
      .ok { st with fs := fs1,
                    config := ⟨aset st.config.binaries appName app1⟩ }

/-- AltbService._select_tag. -/
def selectTag (st : St) (appName : String) (tag : String) : Except (Err × St) St :=
  match alookup st.config.binaries appName with
  | none => .error (.keyError appName, st)
  | some app =>
    let destination := destinationFor st app
    match alookup app.tags tag with
    | none => .error (.keyError tag, st)
    | some (.link _ spec) =>
      -- destination.symlink_to(source): raises FileExistsError when anything
      -- (even a dangling symlink) already occupies the destination path
      if lexistsFS st.fs destination then .error (.fileExistsErr destination, st)
      else
        let fs1 := aset st.fs destination (.symlink spec.path)
        let app1 := { app with selected := some tag }
        .ok { st with fs := fs1,
                      config := ⟨aset st.config.binaries appName app1⟩ }
    | some (.command _ _) =>
      -- open(destination, "w") writes the shim through any symlink chain,
      -- then os.chmod(destination, 0o755)
      match writeThrough st.fs destination (shimContent app.name) 0o755 with
      | none => .error (.eloop destination, st)
      | some fs1 =>
        let app1 := { app with selected := some tag }
        .ok { st with fs := fs1,
                      config := ⟨aset st.config.binaries appName app1⟩ }

/-- Body of AltbService.select after its two existence checks. -/
def selectCore (st : St) (appName : String) (tag : Option String) (force : Bool) :
    Except (Err × St) St :=
  match alookup st.config.binaries appName with
  | none => .error (.keyError appName, st)
  | some app =>
    let step1 : Except (Err × St) St :=
      if !force && app.selected.isSome then unselectCurrentTag st appName
      else .ok st
    match step1 with
    | .error e => .error e
    | .ok st1 =>
      match tag with
      | some t => selectTag st1 appName t
      | none => .ok st1

/-- AltbService.select. -/
def select (st : St) (appName : String) (tag : Option String) (force : Bool) :
    Except (Err × St) St :=
  match alookup st.config.binaries appName with
  | none => .error (.appNotTracked appName, st)
  | some app0 =>
    match tag with
    | some t =>
      match alookup app0.tags t with
      | none => .error (.tagNotExist appName t, st)
      | some _ => selectCore st appName (some t) force
    | none => selectCore st appName none force

/-- AltbService.remove. -/
def remove (st : St) (appName tag : String) (newSelected : Option String) :
    Except (Err × St) St :=
  match alookup st.config.binaries appName with
  | none => .error (.appNotTracked appName, st)
  | some app0 =>
    match alookup app0.tags tag with
    | none => .error (.tagNotExist appName tag, st)
    | some _ =>
      let step : Except (Err × St) St :=
        if app0.selected = some tag then select st appName newSelected false
        else .ok st
      match step with
      | .error e => .error e
      | .ok st1 =>
        -- del self.config.binaries[app_name][tag]
        match alookup st1.config.binaries appName with
        | none => .error (.keyError appName, st1)
        | some app1 =>
          if (alookup app1.tags tag).isSome then
            .ok { st1 with config :=
                    ⟨aset st1.config.binaries appName
                       { app1 with tags := aerase app1.tags tag }⟩ }
          else .error (.keyError tag, st1)

/-- AltbService.rename_tag. -/
def renameTag (st : St) (appName tag newTag : String) : Except (Err × St) St :=
  match alookup st.config.binaries appName with
  | none => .error (.appNotTracked appName, st)
  | some app =>
    match alookup app.tags tag with
    | none => .error (.tagNotExist appName tag, st)
    | some obj =>
      let st1 := { st with config :=
                     ⟨aset st.config.binaries appName
                        { app with tags := aset app.tags newTag obj }⟩ }
      remove st1 appName tag (some newTag)

/-- AltbService.describe_tag (obj.description is mutated in place, i.e. the
tag stored in the dict changes). -/
def describeTag (st : St) (appName tag : String) (description : Option String) :
    Except (Err × St) St :=
  match alookup st.config.binaries appName with
  | none => .error (.appNotTracked appName, st)
  | some app =>
    match alookup app.tags tag with
    | none => .error (.tagNotExist appName tag, st)
    | some obj =>
      let obj1 :=
        match obj with
        | .link _ spec => TagConfig.link description spec
        | .command _ spec => TagConfig.command description spec
      .ok { st with config :=
              ⟨aset st.config.binaries appName
                 { app with tags := aset app.tags tag obj1 }⟩ }

/-- Loop body of AltbService._dedup_paths over a snapshot of the tag dict. -/
def dedupGo (appName : String) (appPath : FPath) (force : Bool) :
    List (String × TagConfig) → St → Except (Err × St) St
  | [], st => .ok st
  | (existingTag, cfg) :: rest, st =>
    match cfg with
    | .link _ spec =>
      if spec.path = appPath then
        if !force then .error (.pathAlreadyTracked appPath existingTag appName, st)
        else
          match remove st appName existingTag none with
          | .error e => .error e
          | .ok st1 => dedupGo appName appPath force rest st1
      else dedupGo appName appPath force rest st
    | .command _ _ => dedupGo appName appPath force rest st

/-- AltbService._dedup_paths. -/
def dedupPaths (st : St) (appName : String) (appPath : FPath) (force : Bool) :
    Except (Err × St) St :=
  match alookup st.config.binaries appName with
  | none => .error (.keyError appName, st)
  | some app => dedupGo appName appPath force app.tags st

/-- AltbService.track_path.  The random eight-character uuid used when no tag
is supplied is modelled by the explicit argument genTag. -/
def trackPath (st : St) (appName : String) (appPath0 : FPath) (tagArg : Option String)
    (description : Option String) (shouldCopy : Bool) (force : Bool) (genTag : String) :
    Except (Err × St) St :=
  if !pexists st.fs appPath0 then .error (.pathNotExist appPath0, st)
  else
    let tag := tagArg.getD genTag
    let st0 :=
      if (alookup st.config.binaries appName).isNone then
        { st with config := ⟨aset st.config.binaries appName ⟨appName, [], none⟩⟩ }
      else st
    match alookup st0.config.binaries appName with
    | none => .error (.keyError appName, st0)
    | some app =>
      -- make sure we don't override selected tag if there's a drift
      let step1 : Except (Err × St) St :=
        if !force && (alookup app.tags tag).isSome && app.selected.isSome then
          unselectCurrentTag st0 appName
        else .ok st0
      match step1 with
      | .error e => .error e
      | .ok st1 =>
        let copyStep : Except (Err × St) (FPath × St) :=
          if shouldCopy then
            let versionDirectory := st1.settings.versionsPath ++ "/" ++ appName
            let appPath := versionDirectory ++ "/" ++ appName ++ "_" ++ tag
            if pexists st1.fs appPath && !force then
              .error (.copyDestExists appPath, st1)
            else
              match copyFileFS st1.fs appPath0 appPath with
              | none => .error (.eloop appPath, st1)
              | some fs1 =>
                match chmodFS fs1 appPath 0o755 with
                | none => .error (.eloop appPath, st1)
                | some fs2 => .ok (appPath, { st1 with fs := fs2 })
          else .ok (appPath0, st1)
        match copyStep with
        | .error e => .error e
        | .ok (appPath, st2) =>
          match dedupPaths st2 appName appPath force with
          | .error e => .error e
          | .ok st3 =>
            match alookup st3.config.binaries appName with
            | none => .error (.keyError appName, st3)
            | some app3 =>
              let newTag := TagConfig.link description ⟨appPath, some shouldCopy⟩
              let st4 := { st3 with config :=
                             ⟨aset st3.config.binaries appName
                                { app3 with tags := aset app3.tags tag newTag }⟩ }
              select st4 appName (some tag) force

/-- AltbService.track_command (note: select is called without force). -/
def trackCommand (st : St) (appName command : String) (tagArg : Option String)
    (description : Option String) (workingDirectory : Option FPath) (genTag : String) :
    Except (Err × St) St :=
  let wdBad :=
    match workingDirectory with
    | some wd => !pexists st.fs wd
    | none => false
  if wdBad then .error (.pathNotExist (workingDirectory.getD ""), st)
  else
    let tag := tagArg.getD genTag
    let st0 :=
      if (alookup st.config.binaries appName).isNone then
        { st with config := ⟨aset st.config.binaries appName ⟨appName, [], none⟩⟩ }
      else st
    match alookup st0.config.binaries appName with
    | none => .error (.keyError appName, st0)
    | some app =>
      let spec : CommandTagSpec := ⟨command, workingDirectory, none⟩
      let st1 := { st0 with config :=
                     ⟨aset st0.config.binaries appName
                        { app with tags := aset app.tags tag (.command description spec) }⟩ }
      select st1 appName (some tag) false

/-! ## Persisted document values

The persisted file is YAML produced by
`yaml.safe_dump(yaml.safe_load(config.json(exclude_none=True)))` and read
back by `yaml.safe_load`.  The text layer is not modelled: a document is the
JSON/YAML value tree.  `yaml.safe_dump` sorts mapping keys (sort_keys=True is
its default), which is reflected by sorting the fields of every object the
dump produces; scalars and the tree structure round-trip through the text
unchanged. -/

/-- JSON/YAML value tree as it appears in this configuration file (the file
never holds numbers). -/
inductive JVal : Type
  | str (s : String)
  | bool (b : Bool)
  | null
  | obj (fields : List (String × JVal))
  | arr (elems : List JVal)

/-- Lexicographic codepoint comparison of two key strings (the order Python
sorts mapping keys by). -/
def charsLe : List Char → List Char → Bool
  | [], _ => true
  | _ :: _, [] => false
  | a :: as, b :: bs =>
    if a.toNat < b.toNat then true
    else if b.toNat < a.toNat then false
    else charsLe as bs

/-- Key order used when yaml.safe_dump sorts mapping keys. -/
def strLeKeys (a b : String) : Bool :=
  charsLe a.toList b.toList

/-- Insert one keyed pair into a key-sorted list (insertion sort step). -/
def insertPairSorted {α : Type} (p : String × α) : List (String × α) → List (String × α)
  | [] => [p]
  | q :: rest => if strLeKeys p.1 q.1 then p :: q :: rest else q :: insertPairSorted p rest

/-- Sort a keyed list by key (models sort_keys=True of yaml.safe_dump). -/
def sortPairs {α : Type} : List (String × α) → List (String × α)
  | [] => []
  | p :: rest => insertPairSorted p (sortPairs rest)

/-! ### Dump: `config.json(exclude_none=True)` composed with the yaml
round-trip (key sorting).  Field order follows the pydantic declaration
order, then each object's fields are sorted. -/

/-- Fields contributed by an optional value (exclude_none drops None). -/
def optField (name : String) (v : Option JVal) : List (String × JVal) :=
  match v with
  | none => []
  | some j => [(name, j)]

/-- Dump of LinkTagSpec. -/
def dumpLinkSpec (s : LinkTagSpec) : JVal :=
  .obj (sortPairs ([("path", .str s.path)] ++
    optField "is_copy" (s.is_copy.map JVal.bool)))

/-- Dump of CommandTagSpec (env keys, like all mapping keys, end up sorted
in the persisted file). -/
def dumpCommandSpec (s : CommandTagSpec) : JVal :=
  .obj (sortPairs ([("command", .str s.command)] ++
    optField "working_directory" (s.working_directory.map JVal.str) ++
    optField "env" (s.env.map (fun e =>
      .obj (sortPairs (e.map (fun kv => (kv.1, JVal.str kv.2))))))))

/-- Dump of one tag (kind, description?, spec). -/
def dumpTag : TagConfig → JVal
  | .link d spec =>
    .obj (sortPairs ([("kind", .str "link")] ++
      optField "description" (d.map JVal.str) ++ [("spec", dumpLinkSpec spec)]))
  | .command d spec =>
    .obj (sortPairs ([("kind", .str "command")] ++
      optField "description" (d.map JVal.str) ++ [("spec", dumpCommandSpec spec)]))

/-- Dump of BinaryStruct. -/
def dumpBinary (b : BinaryStruct) : JVal :=
  .obj (sortPairs ([("name", .str b.name),
    ("tags", .obj (sortPairs (b.tags.map (fun p => (p.1, dumpTag p.2)))))] ++
    optField "selected" (b.selected.map JVal.str)))

/-- Dump of the whole document: what one save writes to the file. -/
def dumpAppConfig (c : AppConfig) : JVal :=
  .obj (sortPairs [("binaries",
    .obj (sortPairs (c.binaries.map (fun p => (p.1, dumpBinary p.2)))))])

/-! ### Parse: pydantic validation of `AppConfig(**content)`.

pydantic collects every violation into one ValidationError; the model keeps
the first.  `extra = Extra.forbid` holds on every model, so unknown fields
are rejected. -/

/-- One field violation inside a pydantic ValidationError. -/
inductive VErr : Type
  | extraField (loc field : String)
  | missingField (loc field : String)
  | wrongType (loc field : String)
  deriving Repr, DecidableEq

/-- pydantic v1 plain `str` fields accept str and coerce bool (a subclass of
int) via `str(v)`. -/
def parseStrLoose : JVal → Option String
  | .str s => some s
  | .bool b => some (if b then "True" else "False")
  | _ => none

/-- A `pathlib.Path` field accepts only str (and Path) input. -/
def parsePathField : JVal → Option FPath
  | .str s => some s
  | _ => none

/-- Parse an optional str field that is absent, null or a string. -/
def parseOptStr (loc field : String) (v : Option JVal) : Except VErr (Option String) :=
  match v with
  | none => .ok none
  | some .null => .ok none
  | some j =>
    match parseStrLoose j with
    | some s => .ok (some s)
    | none => .error (.wrongType loc field)

/-- altb.model.tags.LinkTagSpec validator. -/
def parseLinkSpec (v : JVal) : Except VErr LinkTagSpec :=
  match v with
  | .obj f =>
    if !f.all (fun p => p.1 = "path" || p.1 = "is_copy") then
      .error (.extraField "LinkTagSpec" "extra")
    else
      match alookup f "path" with
      | none => .error (.missingField "LinkTagSpec" "path")
      | some pv =>
        match parsePathField pv with
        | none => .error (.wrongType "LinkTagSpec" "path")
        | some path =>
          match alookup f "is_copy" with
          | none => .ok ⟨path, some false⟩
          | some .null => .ok ⟨path, none⟩
          | some (.bool b) => .ok ⟨path, some b⟩
          | some _ => .error (.wrongType "LinkTagSpec" "is_copy")
  | _ => .error (.wrongType "LinkTagSpec" "spec")

/-- Parse the entries of an `env` mapping (StrictStr values only). -/
def parseEnvList : List (String × JVal) → Except VErr (List (String × String))
  | [] => .ok []
  | (k, .str s) :: rest =>
    match parseEnvList rest with
    | .ok tail => .ok ((k, s) :: tail)
    | .error e => .error e
  | (_, _) :: _ => .error (.wrongType "CommandTagSpec" "env")

/-- altb.model.tags.CommandTagSpec validator. -/
def parseCommandSpec (v : JVal) : Except VErr CommandTagSpec :=
  match v with
  | .obj f =>
    if !f.all (fun p => p.1 = "command" || p.1 = "working_directory" || p.1 = "env") then
      .error (.extraField "CommandTagSpec" "extra")
    else
      match alookup f "command" with
      | none => .error (.missingField "CommandTagSpec" "command")
      | some cv =>
        match parseStrLoose cv with
        | none => .error (.wrongType "CommandTagSpec" "command")
        | some command =>
          let wdE : Except VErr (Option FPath) :=
            match alookup f "working_directory" with
            | none => .ok none
            | some .null => .ok none
            | some wv =>
              match parsePathField wv with
              | some p => .ok (some p)
              | none => .error (.wrongType "CommandTagSpec" "working_directory")
          match wdE with
          | .error e => .error e
          | .ok wd =>
            match alookup f "env" with
            | none => .ok ⟨command, wd, none⟩
            | some .null => .ok ⟨command, wd, none⟩
            | some (.obj ef) =>
              match parseEnvList ef with
              | .ok env => .ok ⟨command, wd, some env⟩
              | .error e => .error e
            | some _ => .error (.wrongType "CommandTagSpec" "env")
  | _ => .error (.wrongType "CommandTagSpec" "spec")

/-- altb.model.tags.TagConfig validator (discriminated union on `kind`,
each branch a model with `extra = forbid`). -/
def parseTagConfig (v : JVal) : Except VErr TagConfig :=
  match v with
  | .obj f =>
    if !f.all (fun p => p.1 = "kind" || p.1 = "description" || p.1 = "spec") then
      .error (.extraField "TagConfig" "extra")
    else
      match parseOptStr "TagConfig" "description" (alookup f "description") with
      | .error e => .error e
      | .ok description =>
        match alookup f "kind" with
        | some (.str "link") =>
          match alookup f "spec" with
          | none => .error (.missingField "TagConfig" "spec")
          | some sv =>
            match parseLinkSpec sv with
            | .ok spec => .ok (.link description spec)
            | .error e => .error e
        | some (.str "command") =>
          match alookup f "spec" with
          | none => .error (.missingField "TagConfig" "spec")
          | some sv =>
            match parseCommandSpec sv with
            | .ok spec => .ok (.command description spec)
            | .error e => .error e
        | some _ => .error (.wrongType "TagConfig" "kind")
        | none => .error (.missingField "TagConfig" "kind")
  | _ => .error (.wrongType "TagConfig" "tag")

/-- Parse the tag dict of a binary, keeping the input order. -/
def parseTagsList : List (String × JVal) → Except VErr (List (String × TagConfig))
  | [] => .ok []
  | (k, v) :: rest =>
    match parseTagConfig v with
    | .error e => .error e
    | .ok t =>
      match parseTagsList rest with
      | .error e => .error e
      | .ok tail => .ok ((k, t) :: tail)

/-- altb.model.config.BinaryStruct validator. -/
def parseBinaryStruct (v : JVal) : Except VErr BinaryStruct :=
  match v with
  | .obj f =>
    if !f.all (fun p => p.1 = "name" || p.1 = "tags" || p.1 = "selected") then
      .error (.extraField "BinaryStruct" "extra")
    else
      match alookup f "name" with
      | none => .error (.missingField "BinaryStruct" "name")
      | some nv =>
        match parseStrLoose nv with
        | none => .error (.wrongType "BinaryStruct" "name")
        | some name =>
          let tagsE : Except VErr (List (String × TagConfig)) :=
            match alookup f "tags" with
            | none => .ok []
            | some (.obj tf) => parseTagsList tf
            | some _ => .error (.wrongType "BinaryStruct" "tags")
          match tagsE with
          | .error e => .error e
          | .ok tags =>
            match parseOptStr "BinaryStruct" "selected" (alookup f "selected") with
            | .error e => .error e
            | .ok selected => .ok ⟨name, tags, selected⟩
  | _ => .error (.wrongType "BinaryStruct" "binary")

/-- Parse the binaries dict, keeping the input order. -/
def parseBinariesList : List (String × JVal) → Except VErr (List (String × BinaryStruct))
  | [] => .ok []
  | (k, v) :: rest =>
    match parseBinaryStruct v with
    | .error e => .error e
    | .ok b =>
      match parseBinariesList rest with
      | .error e => .error e
      | .ok tail => .ok ((k, b) :: tail)

/-- altb.model.config.AppConfig validator on the keyword dict of
`AppConfig(**content)`. -/
def parseAppConfigFields (f : List (String × JVal)) : Except VErr AppConfig :=
  if !f.all (fun p => p.1 = "binaries") then
    .error (.extraField "AppConfig" "extra")
  else
    match alookup f "binaries" with
    | none => .ok ⟨[]⟩
    | some (.obj bf) =>
      match parseBinariesList bf with
      | .error e => .error e
      | .ok bins => .ok ⟨bins⟩
    | some _ => .error (.wrongType "AppConfig" "binaries")

/-- Failures of AltbService._load_config. -/
inductive LoadErr : Type
  | yamlParseError
  | typeError
  | validationError (e : VErr)
  deriving Repr, DecidableEq

/-- AltbService._load_config.  The file argument is `none` when the path does
not exist; otherwise it carries the result of `yaml.safe_load` on the text
(`Except.error` an unparseable text, `Except.ok none` an empty document).
`AppConfig(**content)` raises TypeError when the loaded value is not a
mapping (and in particular for an empty file, where it is None). -/
def loadConfigFile (file : Option (Except Unit (Option JVal))) :
    Except LoadErr (AppConfig × Bool) :=
  match file with
  | none => .ok (⟨[]⟩, false)
  | some (.error _) => .error .yamlParseError
  | some (.ok none) => .error .typeError
  | some (.ok (some v)) =>
    match v with
    | .obj fields =>
      match parseAppConfigFields fields with
      | .ok c => .ok (c, true)
      | .error e => .error (.validationError e)
    | _ => .error .typeError

/-- Errors escaping the AltbService.config property: a pydantic
ValidationError is re-raised as RichValueError, everything else propagates
unchanged. -/
inductive ConfigPropErr : Type
  | richValue (e : VErr)
  | uncaught (e : LoadErr)
  deriving Repr, DecidableEq

/-- The AltbService.config property on first access (the save of a fresh
document when the file did not exist is the `Bool` in the result). -/
def configPropertyLoad (file : Option (Except Unit (Option JVal))) :
    Except ConfigPropErr (AppConfig × Bool) :=
  match loadConfigFile file with
  | .ok r => .ok r
  | .error (.validationError e) => .error (.richValue e)
  | .error e => .error (.uncaught e)

/-! ## The service scope (`with AltbService(settings) as service:`)

`AltbService.__exit__` calls `self.save()` without looking at `exc_type`, so
the configuration file is written whether or not the operation raised.  The
write of the file is recorded as the dumped document (`savedDoc`). -/

/-- Observable outcome of one `with AltbService(...)` scope around one
operation. -/
structure ScopeResult where
  errorRaised : Option Err
  finalConfig : AppConfig
  finalFs : FS
  savedDoc : Option JVal

/-- Run one operation inside the service scope; `__exit__` saves the
in-memory document unconditionally, also when the operation raised. -/
def runScope (op : St → Except (Err × St) St) (st : St) : ScopeResult :=
  match op st with
  | .ok st1 => ⟨none, st1.config, st1.fs, some (dumpAppConfig st1.config)⟩
  | .error (e, st1) => ⟨some e, st1.config, st1.fs, some (dumpAppConfig st1.config)⟩

/-! ## shlex.split (posix mode, whitespace_split, no comments) -/

/-- Characters in shlex.whitespace. -/
def shlexIsWhitespace (c : Char) : Bool :=
  c = ' ' || c = '\t' || c = '\r' || c = '\n'

/-- Lexer state of shlex in posix mode. -/
inductive ShlexMode : Type
  | normal
  | escaped
  | singleQ
  | doubleQ
  | doubleQEsc
  deriving Repr, DecidableEq

/-- The shlex state machine: outside quotes a backslash escapes the next
character; single quotes are fully literal; inside double quotes a backslash
is special only before a double quote or another backslash. -/
def shlexGo : List Char → ShlexMode → Option String → List String →
    Except Err (List String)
  | [], .normal, cur, acc =>
    .ok (acc ++ (match cur with | some t => [t] | none => []))
  | [], .escaped, _, _ => .error .shlexNoEscapedCharacter
  | [], .doubleQEsc, _, _ => .error .shlexNoEscapedCharacter
  | [], .singleQ, _, _ => .error .shlexNoClosingQuotation
  | [], .doubleQ, _, _ => .error .shlexNoClosingQuotation
  | c :: rest, .normal, cur, acc =>
    if shlexIsWhitespace c then
      match cur with
      | some t => shlexGo rest .normal none (acc ++ [t])
      | none => shlexGo rest .normal none acc
    else if c = '\\' then shlexGo rest .escaped (some (cur.getD "")) acc
    else if c = '\'' then shlexGo rest .singleQ (some (cur.getD "")) acc
    else if c = '"' then shlexGo rest .doubleQ (some (cur.getD "")) acc
    else shlexGo rest .normal (some ((cur.getD "").push c)) acc
  | c :: rest, .escaped, cur, acc =>
    shlexGo rest .normal (some ((cur.getD "").push c)) acc
  | c :: rest, .singleQ, cur, acc =>
    if c = '\'' then shlexGo rest .normal cur acc
    else shlexGo rest .singleQ (some ((cur.getD "").push c)) acc
  | c :: rest, .doubleQ, cur, acc =>
    if c = '"' then shlexGo rest .normal cur acc
    else if c = '\\' then shlexGo rest .doubleQEsc cur acc
    else shlexGo rest .doubleQ (some ((cur.getD "").push c)) acc
  | c :: rest, .doubleQEsc, cur, acc =>
    if c = '"' || c = '\\' then shlexGo rest .doubleQ (some ((cur.getD "").push c)) acc
    else shlexGo rest .doubleQ (some (((cur.getD "").push '\\').push c)) acc

/-- Python shlex.split. -/
def shlexSplit (s : String) : Except Err (List String) :=
  shlexGo s.toList .normal none []

/-! ## AltbService.run -/

/-- The observable subprocess.call: argument vector, working directory and
environment of the spawned child (stdio is inherited, the call is
synchronous). -/
structure SpawnCall where
  argv : List String
  cwd : Option FPath
  env : List (String × String)
  deriving Repr, DecidableEq

/-- Python `process_env` built from `os.environ` then the overlay loop writing every
tag env entry on top. -/
def overlayEnv (base overrides : List (String × String)) : List (String × String) :=
  overrides.foldl (fun acc kv => aset acc kv.1 kv.2) base

/-- AltbService.run: validates the selection and builds the spawn call; the
current process environment is the osEnv argument.  `if not app.selected`
treats None and the empty string alike as no selection. -/
def run (st : St) (osEnv : List (String × String)) (appName : String)
    (args : List String) : Except Err SpawnCall :=
  match alookup st.config.binaries appName with
  | none => .error (.appNotTracked appName)
  | some app =>
    match app.selected with
    | none => .error (.noSelectedTag app.name)
    | some sel =>
      if sel = "" then .error (.noSelectedTag app.name)
      else
        match alookup app.tags sel with
        | none => .error (.keyError sel)
        | some (.link _ _) => .error (.wrongTagKind app.name sel)
        | some (.command _ spec) =>
          let wdE : Except Err (Option FPath) :=
            match spec.working_directory with
            | some wd =>
              if !pexists st.fs wd then
                .error (.workingDirNotExist wd sel app.name)
              else .ok (some wd)
            | none => .ok none
          match wdE with
          | .error e => .error e
          | .ok workingDirectory =>
            match shlexSplit spec.command with
            | .error e => .error e
            | .ok userCommand =>
              let fullCommand := userCommand ++ args
              let processEnv := overlayEnv osEnv (spec.env.getD [])
              .ok ⟨fullCommand, workingDirectory, processEnv⟩

/-! ## Migration engine (src/altb/migrator) -/

/-- altb.migrator.versions.ConfigVersion; `latest` aliases v0_1_0. -/
inductive ConfigVersion : Type
  | v0_0_0
  | v0_1_0
  deriving Repr, DecidableEq

/-- String value of a version. -/
def versionValue : ConfigVersion → String
  | .v0_0_0 => "0.0.0"
  | .v0_1_0 => "0.1.0"

/-- ConfigVersion.latest. -/
def latestVersion : ConfigVersion := .v0_1_0

/-- Failures of the migration engine: `ConfigVersion(...)` on an unknown
string raises ValueError; missing keys raise KeyError; indexing a non-dict
raises TypeError; a schema mismatch after a step is fatal. -/
inductive MigErr : Type
  | unknownVersion
  | typeError
  | keyError (k : String)
  | schemaViolation
  deriving Repr, DecidableEq

/-- Python `ConfigVersion` applied to the version entry of the document. -/
def parseConfigVersion : JVal → Except MigErr ConfigVersion
  | .str s =>
    if s = "0.0.0" then .ok .v0_0_0
    else if s = "0.1.0" then .ok .v0_1_0
    else .error .unknownVersion
  | _ => .error .unknownVersion

/-- Position of a version in the migrations list (always found, since
parseConfigVersion only produces known versions). -/
def migrationIndex : ConfigVersion → Nat
  | .v0_0_0 => 0
  | .v0_1_0 => 1

/-- MigrationInitial.migrate: identity. -/
def mig001 (doc : List (String × JVal)) : Except MigErr (List (String × JVal)) :=
  .ok doc

/-- Python `del` of the is_copy entry on one link tag spec. -/
def mig002Spec (specFields : List (String × JVal)) :
    Except MigErr (List (String × JVal)) :=
  if (alookup specFields "is_copy").isSome then .ok (aerase specFields "is_copy")
  else .error (.keyError "is_copy")

/-- MigrationRemoveIsCopy on one tag value. -/
def mig002Tag (tagVal : JVal) : Except MigErr JVal :=
  match tagVal with
  | .obj tf =>
    match alookup tf "kind" with
    | none => .error (.keyError "kind")
    | some kindVal =>
      if (match kindVal with | .str s => s == "link" | _ => false) then
        match alookup tf "spec" with
        | none => .error (.keyError "spec")
        | some (.obj sf) =>
          match mig002Spec sf with
          | .ok sf1 => .ok (.obj (aset tf "spec" (.obj sf1)))
          | .error e => .error e
        | some _ => .error .typeError
      else .ok tagVal
  | _ => .error .typeError

/-- MigrationRemoveIsCopy over the tag dict of one binary. -/
def mig002Tags : List (String × JVal) → Except MigErr (List (String × JVal))
  | [] => .ok []
  | (k, v) :: rest =>
    match mig002Tag v with
    | .error e => .error e
    | .ok v1 =>
      match mig002Tags rest with
      | .error e => .error e
      | .ok tail => .ok ((k, v1) :: tail)

/-- MigrationRemoveIsCopy on one binary value. -/
def mig002Binary (v : JVal) : Except MigErr JVal :=
  match v with
  | .obj bf =>
    match alookup bf "tags" with
    | none => .error (.keyError "tags")
    | some (.obj tf) =>
      match mig002Tags tf with
      | .ok tf1 => .ok (.obj (aset bf "tags" (.obj tf1)))
      | .error e => .error e
    | some _ => .error .typeError
  | _ => .error .typeError

/-- MigrationRemoveIsCopy over the binaries dict. -/
def mig002Binaries : List (String × JVal) → Except MigErr (List (String × JVal))
  | [] => .ok []
  | (k, v) :: rest =>
    match mig002Binary v with
    | .error e => .error e
    | .ok v1 =>
      match mig002Binaries rest with
      | .error e => .error e
      | .ok tail => .ok ((k, v1) :: tail)

/-- MigrationRemoveIsCopy.migrate on the whole document. -/
def mig002 (doc : List (String × JVal)) : Except MigErr (List (String × JVal)) :=
  match alookup doc "binaries" with
  | none => .error (.keyError "binaries")
  | some (.obj bs) =>
    match mig002Binaries bs with
    | .ok bs1 => .ok (aset doc "binaries" (.obj bs1))
    | .error e => .error e
  | some _ => .error .typeError

/-- Modelled from the spec: the JSON-schema snapshot files
(migrations/schemas/001_AppConfig.json and 002_AppConfig.json) are not under
src, only referenced by the migration classes.  Per §4.5/§6 each schema
describes the exact document shape after its step: a `version` string, a
`binaries` mapping of binary records each with `name`, a `tags` mapping of
tags (kind, spec), where the post-002 shape no longer allows `is_copy` on a
link spec.  This check validates one tag. -/
def validSchemaTag (allowIsCopy : Bool) (v : JVal) : Bool :=
  match v with
  | .obj tf =>
    match alookup tf "kind", alookup tf "spec" with
    | some (.str "link"), some (.obj sf) =>
      (match alookup sf "path" with | some (.str _) => true | _ => false) &&
      (allowIsCopy || (alookup sf "is_copy").isNone)
    | some (.str "command"), some (.obj sf) =>
      (match alookup sf "command" with | some (.str _) => true | _ => false)
    | _, _ => false
  | _ => false

/-- Modelled from the spec (see validSchemaTag): shape of one binary record. -/
def validSchemaBinary (allowIsCopy : Bool) (v : JVal) : Bool :=
  match v with
  | .obj bf =>
    (match alookup bf "name" with | some (.str _) => true | _ => false) &&
    (match alookup bf "tags" with
     | some (.obj tf) => tf.all (fun p => validSchemaTag allowIsCopy p.2)
     | none => true
     | some _ => false)
  | _ => false

/-- Modelled from the spec (see validSchemaTag): shape of the document after
a migration step. -/
def validateSchema (allowIsCopy : Bool) (doc : List (String × JVal)) : Bool :=
  (match alookup doc "version" with | some (.str _) => true | _ => false) &&
  (match alookup doc "binaries" with
   | some (.obj bs) => bs.all (fun p => validSchemaBinary allowIsCopy p.2)
   | _ => false)

/-- One entry of the altb.migrator.migrator.migrations list. -/
structure MigrationConfig : Type where
  version : ConfigVersion
  step : List (String × JVal) → Except MigErr (List (String × JVal))
  schemaCheck : List (String × JVal) → Bool

/-- The ordered migrations list. -/
def migrations : List MigrationConfig :=
  [⟨.v0_0_0, mig001, validateSchema true⟩, ⟨.v0_1_0, mig002, validateSchema false⟩]

/-- The `for migration in migrations_needed` loop: apply the step, stamp the
version it produces, validate against its schema. -/
def runMigrations : List MigrationConfig → List (String × JVal) →
    Except MigErr (List (String × JVal))
  | [], doc => .ok doc
  | m :: rest, doc =>
    match m.step doc with
    | .error e => .error e
    | .ok d1 =>
      let d2 := aset d1 "version" (.str (versionValue m.version))
      if m.schemaCheck d2 then runMigrations rest d2
      else .error .schemaViolation

/-- altb.migrator.migrator.migrate (deepcopy is the identity here; the print
statements are not modelled). -/
def migrate (config : List (String × JVal)) : Except MigErr (List (String × JVal)) :=
  let versionE : Except MigErr ConfigVersion :=
    match alookup config "version" with
    | none => .ok .v0_0_0
    | some v => parseConfigVersion v
  match versionE with
  | .error e => .error e
  | .ok version =>
    runMigrations (migrations.drop (migrationIndex version + 1)) config

/-! ## Python equality of documents

pydantic v1 BaseModel.__eq__ compares `self.dict() == other.dict()`: a
structural comparison of every field, with Python dict equality (key sets
and per-key values, order-insensitive) at every mapping.  The overridden
`__eq__`/`__hash__` on BaseTag and the specs are bypassed by the `.dict()`
conversion. -/

/-- Python dict equality (left argument assumed to have unique keys, as every
Python dict does). -/
def dictPyEq {α : Type} (valEq : α → α → Bool) (l1 l2 : List (String × α)) : Bool :=
  l1.all (fun p =>
    match alookup l2 p.1 with
    | some v2 => valEq p.2 v2
    | none => false) &&
  l2.all (fun p => (alookup l1 p.1).isSome)

/-- Equality of two dumped LinkTagSpec values. -/
def linkSpecPyEq (s1 s2 : LinkTagSpec) : Bool :=
  s1.path == s2.path && s1.is_copy == s2.is_copy

/-- Equality of two dumped CommandTagSpec values. -/
def commandSpecPyEq (s1 s2 : CommandTagSpec) : Bool :=
  s1.command == s2.command && s1.working_directory == s2.working_directory &&
  (match s1.env, s2.env with
   | none, none => true
   | some e1, some e2 => dictPyEq (fun a b => a == b) e1 e2
   | _, _ => false)

/-- Equality of two dumped tags. -/
def tagPyEq : TagConfig → TagConfig → Bool
  | .link d1 s1, .link d2 s2 => d1 == d2 && linkSpecPyEq s1 s2
  | .command d1 s1, .command d2 s2 => d1 == d2 && commandSpecPyEq s1 s2
  | _, _ => false

/-- Equality of two dumped binary records. -/
def binaryPyEq (b1 b2 : BinaryStruct) : Bool :=
  b1.name == b2.name && b1.selected == b2.selected && dictPyEq tagPyEq b1.tags b2.tags

/-- Python `==` on two AppConfig documents. -/
def configPyEq (c1 c2 : AppConfig) : Bool :=
  dictPyEq binaryPyEq c1.binaries c2.binaries

/-! ## Well-formedness of reachable documents (Python dicts have unique
keys). -/

/-- Unique env keys inside a tag. -/
def wfTagB : TagConfig → Bool
  | .link _ _ => true
  | .command _ spec =>
    match spec.env with
    | some e => decide (NodupKeys e)
    | none => true

/-- Unique tag keys and well-formed tags. -/
def wfBinaryB (b : BinaryStruct) : Bool :=
  decide (NodupKeys b.tags) && b.tags.all (fun p => wfTagB p.2)

/-- Unique binary keys and well-formed binaries. -/
def wfConfigB (c : AppConfig) : Bool :=
  decide (NodupKeys c.binaries) && c.binaries.all (fun p => wfBinaryB p.2)

/-- One tag carries no explicit `is_copy: null`. -/
def tagNoNullIsCopyB : TagConfig → Bool
  | .link _ spec => spec.is_copy.isSome
  | .command _ _ => true

/-- No link tag with an explicit `is_copy: null` (the one field whose None
value does not survive the save/load round trip). -/
def noNullIsCopyB (c : AppConfig) : Bool :=
  c.binaries.all (fun p => p.2.tags.all (fun q => tagNoNullIsCopyB q.2))

/-- Drift condition on the destination artifact of a selected link tag: the
destination is not a symlink, or is a symlink whose target differs from the
tracked path. -/
def driftedAt (fs : FS) (dest target : FPath) : Bool :=
  match alookup fs dest with
  | some (.symlink q) => q != target
  | _ => true

/-! ## Concrete states used to evaluate the code at specific inputs -/

/-- App "app" with two link tags (a → /p, b → /q), a selected with its
artifact in place (no drift). -/
def stTwoLinks : St :=
  ⟨⟨"/bin", "/data/versions"⟩,
   ⟨[("app", ⟨"app",
      [("a", .link none ⟨"/p", some false⟩), ("b", .link none ⟨"/q", some false⟩)],
      some "a"⟩)]⟩,
   [("/bin/app", .symlink "/p"), ("/p", .file "x" 0o755), ("/q", .file "y" 0o755)]⟩

/-- stTwoLinks after a successful non-forced select of "b". -/
def stTwoLinksAfterB : St :=
  ⟨⟨"/bin", "/data/versions"⟩,
   ⟨[("app", ⟨"app",
      [("a", .link none ⟨"/p", some false⟩), ("b", .link none ⟨"/q", some false⟩)],
      some "b"⟩)]⟩,
   [("/p", .file "x" 0o755), ("/q", .file "y" 0o755), ("/bin/app", .symlink "/q")]⟩

/-- Binary record with one link tag a → /p, selected. -/
def binOneLink : BinaryStruct :=
  ⟨"app", [("a", .link none ⟨"/p", some false⟩)], some "a"⟩

/-- App "app" with one selected link tag whose destination symlink was
externally retargeted to /other (drift). -/
def stDrifted : St :=
  ⟨⟨"/bin", "/data/versions"⟩,
   ⟨[("app", binOneLink)]⟩,
   [("/bin/app", .symlink "/other"), ("/p", .file "x" 0o755),
    ("/other", .file "z" 0o755)]⟩

/-- App "app" with a selected link tag a → /p whose artifact is a dangling
symlink: the destination still points at /p but /p itself is gone. -/
def stDangling : St :=
  ⟨⟨"/bin", "/data/versions"⟩, ⟨[("app", binOneLink)]⟩,
   [("/bin/app", .symlink "/p")]⟩

/-- Binary record with one selected command tag carrying env overrides. -/
def binOneCommand : BinaryStruct :=
  ⟨"app", [("c", .command none ⟨"echo hi", none,
     some [("K", "V"), ("PATH", "/override")]⟩)], some "c"⟩

/-- App "app" with the command tag of binOneCommand selected. -/
def stCmd : St :=
  ⟨⟨"/bin", "/data/versions"⟩, ⟨[("app", binOneCommand)]⟩, []⟩

/-- Binary record holding path /p under tag t0, selected. -/
def binHolder : BinaryStruct :=
  ⟨"app", [("t0", .link none ⟨"/p", some false⟩)], some "t0"⟩

/-- State right after the first track of /p under tag t0. -/
def stHolder : St :=
  ⟨⟨"/bin", "/data/versions"⟩, ⟨[("app", binHolder)]⟩,
   [("/bin/app", .symlink "/p"), ("/p", .file "x" 0o755)]⟩

/-- The in-memory document of stDrifted after rename_tag("app", "a", "b")
raised mid-way: the copy under the new name was inserted, the old tag was
never removed and selected still points at it. -/
def cfgHalfRenamed : AppConfig :=
  ⟨[("app", ⟨"app",
     [("a", .link none ⟨"/p", some false⟩), ("b", .link none ⟨"/p", some false⟩)],
     some "a"⟩)]⟩

/-- A representative well-formed configuration exercising both tag kinds,
descriptions, env maps and an is_copy value. -/
def cfgRound : AppConfig :=
  ⟨[("app", ⟨"app",
     [("a", .link (some "desc") ⟨"/p", some true⟩),
      ("c", .command none ⟨"echo hi", some "/wd", some [("B", "2"), ("A", "1")]⟩)],
     some "a"⟩)]⟩

/-- A persisted document carrying an old version stamp. -/
def docOldVersionFields : List (String × JVal) :=
  [("version", .str "0.0.0"), ("binaries", .obj [])]

/-- A configuration whose one link tag has an explicit null is_copy. -/
def cfgNullIsCopy : AppConfig :=
  ⟨[("app", ⟨"app", [("a", .link none ⟨"/p", none⟩)], none⟩)]⟩

/-- What cfgNullIsCopy becomes after one save/load cycle: is_copy was dropped
by exclude_none and re-defaulted to false. -/
def cfgNullIsCopyReloaded : AppConfig :=
  ⟨[("app", ⟨"app", [("a", .link none ⟨"/p", some false⟩)], none⟩)]⟩

/-- What one save/load cycle does to a tag: is_copy loses an explicit None
(re-defaulted to False) and env mapping keys come back sorted. -/
def normTag : TagConfig → TagConfig
  | .link d spec => .link d ⟨spec.path, some (spec.is_copy.getD false)⟩
  | .command d spec => .command d ⟨spec.command, spec.working_directory,
      spec.env.map sortPairs⟩

/-- What one save/load cycle does to a binary record: tag keys sorted, tags
normalised. -/
def normBinary (b : BinaryStruct) : BinaryStruct :=
  ⟨b.name, (sortPairs b.tags).map (fun p => (p.1, normTag p.2)), b.selected⟩

/-- What one save/load cycle does to the document. -/
def normConfig (c : AppConfig) : AppConfig :=
  ⟨(sortPairs c.binaries).map (fun p => (p.1, normBinary p.2))⟩

/-! ## General lemmas about the model primitives -/

@[simp] theorem alookup_nil {α : Type} (k : String) :
    alookup ([] : List (String × α)) k = none := rfl

@[simp] theorem alookup_cons {α : Type} (p : String × α) (rest : List (String × α)) (k : String) :
    alookup (p :: rest) k = if p.1 = k then some p.2 else alookup rest k := rfl

theorem alookup_aset {α : Type} (l : List (String × α)) (k : String) (v : α) (k2 : String) :
    alookup (aset l k v) k2 = if k = k2 then some v else alookup l k2 := by
  induction l with
  | nil => by_cases h : k = k2 <;> simp [aset, h]
  | cons p rest ih =>
    by_cases hp : p.1 = k
    · subst hp
      by_cases h : p.1 = k2 <;> simp [aset, h]
    · by_cases h2 : p.1 = k2
      · have hne : ¬ k = k2 := fun he => hp (by rw [h2, he])
        have hk2 : ¬ k2 = k := fun he => hne he.symm
        simp [aset, hp, h2, hne, hk2]
      · simp [aset, hp, h2, ih]

@[simp] theorem alookup_aset_self {α : Type} (l : List (String × α)) (k : String) (v : α) :
    alookup (aset l k v) k = some v := by
  simp [alookup_aset]

theorem alookup_aset_ne {α : Type} (l : List (String × α)) (k : String) (v : α)
    (k2 : String) (h : k ≠ k2) : alookup (aset l k v) k2 = alookup l k2 := by
  simp [alookup_aset, h]

theorem alookup_aerase {α : Type} (l : List (String × α)) (k k2 : String) :
    alookup (aerase l k) k2 = if k2 = k then none else alookup l k2 := by
  induction l with
  | nil => simp [aerase]
  | cons p rest ih =>
    by_cases hp : p.1 = k
    · have hstep : aerase (p :: rest) k = aerase rest k := by
        simp [aerase, hp]
      rw [hstep, ih]
      by_cases h : k2 = k
      · simp [h]
      · have hne : ¬ p.1 = k2 := fun he => h (by rw [← he, hp])
        simp [h, hne]
    · have hstep : aerase (p :: rest) k = p :: aerase rest k := by
        simp [aerase, hp]
      rw [hstep]
      by_cases h2 : p.1 = k2
      · have hne : ¬ k2 = k := fun he => hp (by rw [h2, he])
        simp [h2, hne]
      · simp [h2, ih]

@[simp] theorem alookup_aerase_self {α : Type} (l : List (String × α)) (k : String) :
    alookup (aerase l k) k = none := by
  simp [alookup_aerase]

theorem akeys_cons {α : Type} (p : String × α) (rest : List (String × α)) :
    akeys (p :: rest) = p.1 :: akeys rest := rfl

theorem alookup_eq_some_of_mem {α : Type} {l : List (String × α)} {k : String} {v : α}
    (hnd : NodupKeys l) (hmem : (k, v) ∈ l) : alookup l k = some v := by
  induction l with
  | nil => cases hmem
  | cons p rest ih =>
    have hnd1 : p.1 ∉ akeys rest ∧ NodupKeys rest := by
      have := hnd
      rw [NodupKeys, akeys_cons] at this
      exact List.nodup_cons.mp this
    rcases List.mem_cons.mp hmem with h | h
    · rw [← h]; simp
    · have hk : k ∈ akeys rest := by
        simp only [akeys, List.mem_map]
        exact ⟨(k, v), h, rfl⟩
      have hp : ¬ p.1 = k := fun he => hnd1.1 (by rw [he]; exact hk)
      simp [hp, ih hnd1.2 h]

theorem alookup_isSome_of_mem_keys {α : Type} {l : List (String × α)} {k : String}
    (h : k ∈ akeys l) : (alookup l k).isSome := by
  induction l with
  | nil => simp [akeys] at h
  | cons p rest ih =>
    by_cases hp : p.1 = k
    · simp [hp]
    · rw [akeys_cons] at h
      rcases List.mem_cons.mp h with h1 | h1
      · exact absurd h1.symm hp
      · simpa [hp] using ih h1

theorem alookup_eq_none_of_not_mem_keys {α : Type} {l : List (String × α)} {k : String}
    (h : k ∉ akeys l) : alookup l k = none := by
  induction l with
  | nil => rfl
  | cons p rest ih =>
    rw [akeys_cons] at h
    have hp : ¬ p.1 = k := fun he => h (by rw [he]; exact List.mem_cons_self _ _)
    have hr : k ∉ akeys rest := fun hm => h (List.mem_cons_of_mem _ hm)
    simp [hp, ih hr]

theorem existsFuel_succ (fs : FS) (n : Nat) (p : FPath) :
    existsFuel fs (n + 1) p =
      (match alookup fs p with
       | none => false
       | some (.file _ _) => true
       | some (.symlink t) => existsFuel fs n t) := rfl

theorem pexists_file {fs : FS} {p : FPath} {c : String} {m : Nat}
    (h : alookup fs p = some (.file c m)) : pexists fs p = true := by
  simp [pexists, maxSymlinkHops, existsFuel_succ, h]

theorem pexists_none {fs : FS} {p : FPath} (h : alookup fs p = none) :
    pexists fs p = false := by
  simp [pexists, maxSymlinkHops, existsFuel_succ, h]

theorem pexists_symlink_file {fs : FS} {p t : FPath} {c : String} {m : Nat}
    (hp : alookup fs p = some (.symlink t)) (ht : alookup fs t = some (.file c m)) :
    pexists fs p = true := by
  have h1 : pexists fs p = existsFuel fs 39 t := by
    simp [pexists, maxSymlinkHops, existsFuel_succ, hp]
  rw [h1, show (39 : Nat) = 38 + 1 from rfl, existsFuel_succ, ht]

theorem pexists_symlink_none {fs : FS} {p t : FPath}
    (hp : alookup fs p = some (.symlink t)) (ht : alookup fs t = none) :
    pexists fs p = false := by
  have h1 : pexists fs p = existsFuel fs 39 t := by
    simp [pexists, maxSymlinkHops, existsFuel_succ, hp]
  rw [h1, show (39 : Nat) = 38 + 1 from rfl, existsFuel_succ, ht]

/-- A run of the final migration step stamps the produced document with the
latest version string. -/
theorem runMigrations_last_version (doc doc2 : List (String × JVal))
    (h : runMigrations [⟨.v0_1_0, mig002, validateSchema false⟩] doc = .ok doc2) :
    alookup doc2 "version" = some (.str "0.1.0") := by
  have h2 : (match mig002 doc with
      | Except.error e => Except.error e
      | Except.ok d1 =>
        if validateSchema false
            (aset d1 "version" (JVal.str (versionValue ConfigVersion.v0_1_0))) = true then
          Except.ok (aset d1 "version" (JVal.str (versionValue ConfigVersion.v0_1_0)))
        else Except.error MigErr.schemaViolation) = Except.ok doc2 := h
  clear h
  cases hm : mig002 doc with
  | error e => rw [hm] at h2; cases h2
  | ok d1 =>
    rw [hm] at h2
    dsimp only at h2
    by_cases hschema :
        validateSchema false
          (aset d1 "version" (.str (versionValue ConfigVersion.v0_1_0))) = true
    · rw [if_pos hschema] at h2
      cases h2
      simp [versionValue]
    · rw [if_neg hschema] at h2
      cases h2

/-- Overwriting the same key twice keeps only the last value. -/
theorem aset_aset {α : Type} (l : List (String × α)) (k : String) (v w : α) :
    aset (aset l k v) k w = aset l k w := by
  induction l with
  | nil => simp [aset]
  | cons p rest ih =>
    by_cases hp : p.1 = k
    · simp [aset, hp]
    · simp [aset, hp, ih]

theorem insertPairSorted_perm {α : Type} (p : String × α) (l : List (String × α)) :
    List.Perm (insertPairSorted p l) (p :: l) := by
  induction l with
  | nil => exact List.Perm.refl _
  | cons q rest ih =>
    by_cases h : strLeKeys p.1 q.1 = true
    · simp only [insertPairSorted, h, if_true]
      exact List.Perm.refl _
    · simp only [insertPairSorted, h, if_false]
      exact List.Perm.trans (List.Perm.cons q ih) (List.Perm.swap p q rest)

theorem sortPairs_perm {α : Type} (l : List (String × α)) : List.Perm (sortPairs l) l := by
  induction l with
  | nil => exact List.Perm.refl _
  | cons p rest ih =>
    exact List.Perm.trans (insertPairSorted_perm p (sortPairs rest)) (List.Perm.cons p ih)

theorem insertPairSorted_mapVal {α β : Type} (g : α → β) (p : String × α)
    (l : List (String × α)) :
    insertPairSorted (p.1, g p.2) (l.map (fun q => (q.1, g q.2))) =
      (insertPairSorted p l).map (fun q => (q.1, g q.2)) := by
  induction l with
  | nil => rfl
  | cons q rest ih =>
    by_cases h : strLeKeys p.1 q.1 = true <;> simp [insertPairSorted, h, ih]

/-- Sorting by key commutes with mapping over values. -/
theorem sortPairs_mapVal {α β : Type} (g : α → β) (l : List (String × α)) :
    sortPairs (l.map (fun q => (q.1, g q.2))) =
      (sortPairs l).map (fun q => (q.1, g q.2)) := by
  induction l with
  | nil => rfl
  | cons p rest ih => simp [sortPairs, ih, insertPairSorted_mapVal]


/-- Mapping values commutes with alookup. -/
theorem alookup_mapVal {α β : Type} (f : α → β) (l : List (String × α)) (k : String) :
    alookup (l.map (fun q => (q.1, f q.2))) k = (alookup l k).map f := by
  induction l with
  | nil => rfl
  | cons p rest ih =>
    by_cases hp : p.1 = k <;> simp [hp, ih]

/-- Parsing the dump of an env mapping returns it unchanged. -/
theorem parseEnvList_map (l : List (String × String)) :
    parseEnvList (l.map (fun kv => (kv.1, JVal.str kv.2))) = .ok l := by
  induction l with
  | nil => rfl
  | cons p rest ih =>
    simp only [List.map_cons]
    rw [show (p.1, JVal.str p.2) = ((p.1 : String), JVal.str p.2) from rfl]
    simp only [parseEnvList, ih]

/-- Round trip of a link spec: is_copy collapses to its loaded default. -/
theorem parseLinkSpec_dump (spec : LinkTagSpec) :
    parseLinkSpec (dumpLinkSpec spec) =
      .ok ⟨spec.path, some (spec.is_copy.getD false)⟩ := by
  obtain ⟨path, ic⟩ := spec
  cases ic <;> rfl

/-- Round trip of a command spec: env keys come back sorted. -/
theorem parseCommandSpec_dump (spec : CommandTagSpec) :
    parseCommandSpec (dumpCommandSpec spec) =
      .ok ⟨spec.command, spec.working_directory, spec.env.map sortPairs⟩ := by
  obtain ⟨cmd, wd, env⟩ := spec
  cases wd with
  | none =>
    cases env with
    | none => rfl
    | some e =>
      have hshape : parseCommandSpec (dumpCommandSpec ⟨cmd, none, some e⟩) =
          (match parseEnvList (sortPairs (e.map (fun kv => (kv.1, JVal.str kv.2)))) with
           | .ok env2 => .ok (⟨cmd, none, some env2⟩ : CommandTagSpec)
           | .error e2 => .error e2) := rfl
      rw [hshape, sortPairs_mapVal, parseEnvList_map]
      rfl
  | some w =>
    cases env with
    | none => rfl
    | some e =>
      have hshape : parseCommandSpec (dumpCommandSpec ⟨cmd, some w, some e⟩) =
          (match parseEnvList (sortPairs (e.map (fun kv => (kv.1, JVal.str kv.2)))) with
           | .ok env2 => .ok (⟨cmd, some w, some env2⟩ : CommandTagSpec)
           | .error e2 => .error e2) := rfl
      rw [hshape, sortPairs_mapVal, parseEnvList_map]
      rfl

/-- Round trip of one tag. -/
theorem parseTagConfig_dump (t : TagConfig) :
    parseTagConfig (dumpTag t) = .ok (normTag t) := by
  cases t with
  | link d spec =>
    cases d with
    | none =>
      have hshape : parseTagConfig (dumpTag (.link none spec)) =
          (match parseLinkSpec (dumpLinkSpec spec) with
           | .ok s => .ok (.link none s)
           | .error e => .error e) := rfl
      rw [hshape, parseLinkSpec_dump]
      rfl
    | some ds =>
      have hshape : parseTagConfig (dumpTag (.link (some ds) spec)) =
          (match parseLinkSpec (dumpLinkSpec spec) with
           | .ok s => .ok (.link (some ds) s)
           | .error e => .error e) := rfl
      rw [hshape, parseLinkSpec_dump]
      rfl
  | command d spec =>
    cases d with
    | none =>
      have hshape : parseTagConfig (dumpTag (.command none spec)) =
          (match parseCommandSpec (dumpCommandSpec spec) with
           | .ok s => .ok (.command none s)
           | .error e => .error e) := rfl
      rw [hshape, parseCommandSpec_dump]
      rfl
    | some ds =>
      have hshape : parseTagConfig (dumpTag (.command (some ds) spec)) =
          (match parseCommandSpec (dumpCommandSpec spec) with
           | .ok s => .ok (.command (some ds) s)
           | .error e => .error e) := rfl
      rw [hshape, parseCommandSpec_dump]
      rfl

/-- Round trip of a tag dict (before key sorting). -/
theorem parseTagsList_dumpMap (l : List (String × TagConfig)) :
    parseTagsList (l.map (fun p => (p.1, dumpTag p.2))) =
      .ok (l.map (fun p => (p.1, normTag p.2))) := by
  induction l with
  | nil => rfl
  | cons p rest ih =>
    simp only [List.map_cons, parseTagsList, parseTagConfig_dump, ih]

/-- Round trip of one binary record. -/
theorem parseBinaryStruct_dump (b : BinaryStruct) :
    parseBinaryStruct (dumpBinary b) = .ok (normBinary b) := by
  obtain ⟨name, tags, selected⟩ := b
  cases selected with
  | none =>
    have hdump : dumpBinary ⟨name, tags, none⟩ =
        .obj [("name", .str name),
              ("tags", .obj (sortPairs (tags.map (fun p => (p.1, dumpTag p.2)))))] := rfl
    rw [hdump, sortPairs_mapVal]
    simp [parseBinaryStruct, parseTagsList_dumpMap, parseOptStr, parseStrLoose,
      alookup, normBinary]
  | some sel =>
    have hdump : dumpBinary ⟨name, tags, some sel⟩ =
        .obj [("name", .str name), ("selected", .str sel),
              ("tags", .obj (sortPairs (tags.map (fun p => (p.1, dumpTag p.2)))))] := rfl
    rw [hdump, sortPairs_mapVal]
    simp [parseBinaryStruct, parseTagsList_dumpMap, parseOptStr, parseStrLoose,
      alookup, normBinary]

/-- Round trip of the binaries dict (before key sorting). -/
theorem parseBinariesList_dumpMap (l : List (String × BinaryStruct)) :
    parseBinariesList (l.map (fun p => (p.1, dumpBinary p.2))) =
      .ok (l.map (fun p => (p.1, normBinary p.2))) := by
  induction l with
  | nil => rfl
  | cons p rest ih =>
    simp only [List.map_cons, parseBinariesList, parseBinaryStruct_dump, ih]

/-- Loading one saved document always succeeds and produces the normalised
form of the document. -/
theorem loadConfigFile_dump (c : AppConfig) :
    loadConfigFile (some (.ok (some (dumpAppConfig c)))) =
      .ok (normConfig c, true) := by
  obtain ⟨bins⟩ := c
  have hdump : dumpAppConfig ⟨bins⟩ =
      .obj [("binaries",
        .obj (sortPairs (bins.map (fun p => (p.1, dumpBinary p.2)))))] := rfl
  rw [hdump, sortPairs_mapVal]
  simp [loadConfigFile, parseAppConfigFields, parseBinariesList_dumpMap, alookup,
    normConfig]

/-- Keys survive mapping over values. -/
theorem akeys_mapVal {α β : Type} (f : α → β) (l : List (String × α)) :
    akeys (l.map (fun p => (p.1, f p.2))) = akeys l := by
  simp [akeys, List.map_map]

/-- Python dict equality between a value-mapped permutation of a dict and
the dict itself, given pointwise value equality. -/
theorem dictPyEq_mapVal_perm {α : Type}
    (valEq : α → α → Bool) (f : α → α) (m l : List (String × α))
    (hperm : List.Perm m l) (hnd : NodupKeys l)
    (hpt : ∀ p ∈ l, valEq (f p.2) p.2 = true) :
    dictPyEq valEq (m.map (fun p => (p.1, f p.2))) l = true := by
  rw [dictPyEq, Bool.and_eq_true]
  constructor
  · rw [List.all_eq_true]
    intro q hq
    obtain ⟨p, hp, hpq⟩ := List.mem_map.mp hq
    have hpl : p ∈ l := hperm.subset hp
    have hl : alookup l p.1 = some p.2 := alookup_eq_some_of_mem hnd hpl
    rw [← hpq]
    dsimp only
    rw [hl]
    exact hpt p hpl
  · rw [List.all_eq_true]
    intro p hp
    have hkl : p.1 ∈ akeys l := List.mem_map.mpr ⟨p, hp, rfl⟩
    have hkm : p.1 ∈ akeys m := ((hperm.map Prod.fst).mem_iff).mpr hkl
    have hsome := alookup_isSome_of_mem_keys (l := m) hkm
    simp only [alookup_mapVal]
    cases hmm : alookup m p.1 with
    | none => rw [hmm] at hsome; cases hsome
    | some v => rfl

/-- Pointwise Python equality of a normalised tag with the original, when
the tag has unique env keys and no explicit null is_copy. -/
theorem tagPyEq_normTag (t : TagConfig) (hwf : wfTagB t = true)
    (hnn : tagNoNullIsCopyB t = true) : tagPyEq (normTag t) t = true := by
  cases t with
  | link d spec =>
    obtain ⟨path, ic⟩ := spec
    cases ic with
    | none => simp [tagNoNullIsCopyB] at hnn
    | some bv => simp [normTag, tagPyEq, linkSpecPyEq]
  | command d spec =>
    obtain ⟨cmd, wd, env⟩ := spec
    cases env with
    | none => simp [normTag, tagPyEq, commandSpecPyEq]
    | some e =>
      have hnd : NodupKeys e := by
        simp only [wfTagB, decide_eq_true_eq] at hwf
        exact hwf
      have hd := dictPyEq_mapVal_perm (fun a b => a == b) id (sortPairs e) e
        (sortPairs_perm e) hnd (fun p hp => by simp)
      have hd2 : dictPyEq (fun a b => a == b) (sortPairs e) e = true := by
        have hmap : (sortPairs e).map (fun p => (p.1, id p.2)) = sortPairs e := by
          simp
        rw [hmap] at hd
        exact hd
      simp [normTag, tagPyEq, commandSpecPyEq, hd2]

/-- Pointwise Python equality of a normalised binary record with the
original. -/
theorem binaryPyEq_normBinary (b : BinaryStruct) (hwf : wfBinaryB b = true)
    (hnn : b.tags.all (fun q => tagNoNullIsCopyB q.2) = true) :
    binaryPyEq (normBinary b) b = true := by
  have hparts : (decide (NodupKeys b.tags) = true) ∧
      (b.tags.all (fun p => wfTagB p.2) = true) := by
    rw [wfBinaryB, Bool.and_eq_true] at hwf
    exact hwf
  have hnd : NodupKeys b.tags := of_decide_eq_true hparts.1
  have hwfall := List.all_eq_true.mp hparts.2
  have hnnall := List.all_eq_true.mp hnn
  have hd := dictPyEq_mapVal_perm tagPyEq normTag (sortPairs b.tags) b.tags
    (sortPairs_perm b.tags) hnd
    (fun p hp => tagPyEq_normTag p.2 (hwfall p hp) (hnnall p hp))
  simp [binaryPyEq, normBinary, hd]

/-- Pointwise Python equality of the reloaded document with the saved one. -/
theorem configPyEq_normConfig (c : AppConfig) (hwf : wfConfigB c = true)
    (hnn : noNullIsCopyB c = true) : configPyEq (normConfig c) c = true := by
  have hparts : (decide (NodupKeys c.binaries) = true) ∧
      (c.binaries.all (fun p => wfBinaryB p.2) = true) := by
    rw [wfConfigB, Bool.and_eq_true] at hwf
    exact hwf
  have hnd : NodupKeys c.binaries := of_decide_eq_true hparts.1
  have hwfall := List.all_eq_true.mp hparts.2
  have hnnall := List.all_eq_true.mp hnn
  have hd := dictPyEq_mapVal_perm binaryPyEq normBinary (sortPairs c.binaries)
    c.binaries (sortPairs_perm c.binaries) hnd
    (fun p hp => binaryPyEq_normBinary p.2 (hwfall p hp) (hnnall p hp))
  simpa [configPyEq, normConfig] using hd

/-! ## Claim C1 -/

/-- C1: the claim says AltbService.config / _load_config invoke the migration
engine on an on-disk document whose version is behind the latest.  The code
does not: _load_config feeds the raw mapping straight to AppConfig, whose
strict schema rejects the version field, so a document stamped "0.0.0" fails
with a ValidationError (re-raised as RichValueError) instead of being
migrated — while migrate itself would have accepted the same document and
stamped it with the latest version. -/
theorem claim_C1_load_path_does_not_migrate :
    loadConfigFile (some (.ok (some (.obj docOldVersionFields)))) =
      .error (.validationError (.extraField "AppConfig" "extra")) ∧
    configPropertyLoad (some (.ok (some (.obj docOldVersionFields)))) =
      .error (.richValue (.extraField "AppConfig" "extra")) ∧
    migrate docOldVersionFields =
      .ok [("version", .str "0.1.0"), ("binaries", .obj [])] :=
  ⟨rfl, rfl, rfl⟩

/-! ## Claim C2 -/

/-- C2: the claim says a failed operation inside one service scope does not
persist the document.  AltbService.__exit__ calls save() unconditionally:
rename_tag on a drifted state raises DriftError after inserting the copy of
the tag under the new name, and the scope still writes the half-mutated
document to the configuration file. -/
theorem claim_C2_scope_saves_despite_error :
    runScope (fun s => renameTag s "app" "a" "b") stDrifted =
      ⟨some (.driftDetected "/bin/app"), cfgHalfRenamed, stDrifted.fs,
       some (dumpAppConfig cfgHalfRenamed)⟩ :=
  rfl

/-! ## Claim C4 -/

/-- C4: the claim says select with force=true still removes the existing
artifact before materializing the new tag.  In the code force skips the
whole unselect step, so the old artifact stays: selecting another link tag
then crashes with FileExistsError out of Path.symlink_to and the state
carried by the exception is completely unchanged (no removal happened);
the same transition without force performs removal + replacement. -/
theorem claim_C4_force_select_skips_removal :
    select stTwoLinks "app" (some "b") true =
      .error (.fileExistsErr "/bin/app", stTwoLinks) ∧
    select stTwoLinks "app" (some "b") false = .ok stTwoLinksAfterB :=
  ⟨rfl, rfl⟩

/-! ## Claim C6 counterexample -/

/-- C6 fails as stated: a valid configuration whose link tag carries an
explicit null is_copy does not round-trip.  exclude_none drops the field on
save, load re-defaults it to false, and pydantic equality
(dict()-comparison) distinguishes None from False. -/
theorem claim_C6_counterexample_null_is_copy :
    loadConfigFile (some (.ok (some (dumpAppConfig cfgNullIsCopy)))) =
      .ok (cfgNullIsCopyReloaded, true) ∧
    configPyEq cfgNullIsCopyReloaded cfgNullIsCopy = false :=
  ⟨by decide, by decide⟩

/-- C6 (amended): for every well-formed configuration (unique dict keys) in
which no link tag carries an explicit null is_copy, saving the document and
loading it back always succeeds and yields a document equal — in the Python
sense, pydantic dict()-comparison — to the one saved. -/
theorem claim_C6_amended_roundtrip :
    ∀ c : AppConfig, wfConfigB c = true → noNullIsCopyB c = true →
      loadConfigFile (some (.ok (some (dumpAppConfig c)))) =
        .ok (normConfig c, true) ∧
      configPyEq (normConfig c) c = true :=
  fun c hwf hnn => ⟨loadConfigFile_dump c, configPyEq_normConfig c hwf hnn⟩

/-- Witness for C6 (amended) at a representative configuration. -/
theorem claim_C6_amended_witness :
    (wfConfigB cfgRound = true ∧ noNullIsCopyB cfgRound = true) ∧
    loadConfigFile (some (.ok (some (dumpAppConfig cfgRound)))) =
      .ok (normConfig cfgRound, true) ∧
    configPyEq (normConfig cfgRound) cfgRound = true :=
  ⟨⟨by decide, by decide⟩,
   (claim_C6_amended_roundtrip cfgRound (by decide) (by decide)).1,
   (claim_C6_amended_roundtrip cfgRound (by decide) (by decide)).2⟩

/-! ## Claim C7 -/

/-- C7: a document whose version field already equals the latest known
version is returned by migrate unchanged (no step runs), and every document
migrate returns successfully carries a version field equal to the latest
known value. -/
theorem claim_C7_migrate_latest_noop_and_stamps :
    (∀ doc : List (String × JVal),
       alookup doc "version" = some (.str (versionValue latestVersion)) →
       migrate doc = .ok doc) ∧
    (∀ doc doc2 : List (String × JVal), migrate doc = .ok doc2 →
       alookup doc2 "version" = some (.str (versionValue latestVersion))) := by
  constructor
  · intro doc h
    simp [migrate, h, versionValue, latestVersion, parseConfigVersion,
      migrationIndex, migrations, runMigrations]
  · intro doc doc2 h
    simp only [migrate] at h
    have hdrop0 : migrations.drop (migrationIndex ConfigVersion.v0_0_0 + 1) =
        [⟨ConfigVersion.v0_1_0, mig002, validateSchema false⟩] := rfl
    cases hv : alookup doc "version" with
    | none =>
      rw [hv] at h
      dsimp only at h
      rw [hdrop0] at h
      exact runMigrations_last_version doc doc2 h
    | some v =>
      rw [hv] at h
      dsimp only at h
      cases v with
      | str s =>
        by_cases h0 : s = "0.0.0"
        · subst h0
          have hp : parseConfigVersion (.str "0.0.0") = .ok ConfigVersion.v0_0_0 := rfl
          rw [hp] at h
          dsimp only at h
          rw [hdrop0] at h
          exact runMigrations_last_version doc doc2 h
        · by_cases h1 : s = "0.1.0"
          · subst h1
            have hp : parseConfigVersion (.str "0.1.0") = .ok ConfigVersion.v0_1_0 := rfl
            rw [hp] at h
            dsimp only at h
            have hdrop1 : migrations.drop (migrationIndex ConfigVersion.v0_1_0 + 1) =
                ([] : List MigrationConfig) := rfl
            rw [hdrop1] at h
            simp only [runMigrations] at h
            cases h
            simpa [versionValue, latestVersion] using hv
          · have hp : parseConfigVersion (.str s) = .error .unknownVersion := by
              simp [parseConfigVersion, h0, h1]
            rw [hp] at h
            cases h
      | bool b => simp [parseConfigVersion] at h
      | null => simp [parseConfigVersion] at h
      | obj f => simp [parseConfigVersion] at h
      | arr xs => simp [parseConfigVersion] at h

/-- Witness for C7: the theorem applied at a concrete already-latest document
and at a concrete migration run. -/
theorem claim_C7_witness :
    migrate [("version", .str "0.1.0"), ("binaries", .obj [])] =
      .ok [("version", .str "0.1.0"), ("binaries", .obj [])] ∧
    alookup [("binaries", JVal.obj []), ("version", JVal.str "0.1.0")] "version" =
      some (.str (versionValue latestVersion)) :=
  ⟨claim_C7_migrate_latest_noop_and_stamps.1 _ rfl,
   claim_C7_migrate_latest_noop_and_stamps.2 [("binaries", .obj [])] _ rfl⟩

/-! ## Claim C3 -/

/-- When the destination artifact of the selected link tag has drifted,
_assert_selected_owned_reference produces the drift exception (DRIFT
DETECTED for a retargeted symlink, the not-a-symlink error otherwise). -/
theorem assert_drift (st : St) (b : BinaryStruct) (t : String)
    (d : Option String) (spec : LinkTagSpec)
    (hsel : b.selected = some t)
    (htag : alookup b.tags t = some (.link d spec))
    (hdrift : driftedAt st.fs (destinationFor st b) spec.path = true) :
    ∃ e, assertSelectedOwnedReference st b = some e ∧
      (e = .driftDetected (destinationFor st b) ∨
       e = .notASymlink (destinationFor st b)) := by
  simp only [assertSelectedOwnedReference, hsel, htag]
  unfold driftedAt at hdrift
  cases hd : alookup st.fs (destinationFor st b) with
  | none => simp only [hd]; exact ⟨_, rfl, Or.inr rfl⟩
  | some entry =>
    cases entry with
    | file c m => simp only [hd]; exact ⟨_, rfl, Or.inr rfl⟩
    | symlink q =>
      rw [hd] at hdrift
      have hq : (q != spec.path) = true := hdrift
      have hne : spec.path ≠ q := Ne.symm (bne_iff_ne.mp hq)
      simp only [hd, if_pos hne]
      exact ⟨_, rfl, Or.inl rfl⟩

/-- When the drift check raises, _unselect_current_tag raises the same
exception and mutates nothing. -/
theorem unselect_of_assert_some (st : St) (appName : String) (b : BinaryStruct)
    (e : Err) (hb : alookup st.config.binaries appName = some b)
    (ha : assertSelectedOwnedReference st b = some e) :
    unselectCurrentTag st appName = .error (e, st) := by
  simp only [unselectCurrentTag, hb, ha]

/-- C3: with a selected link tag whose on-disk artifact drifted (destination
not a symlink, or a symlink whose target differs from spec.path), every
non-forced select that reaches the deselect step and every remove of the
selected tag fail with the drift exception, and the carried state is exactly
the original one: selected untouched, no filesystem mutation. -/
theorem claim_C3_drift_blocks_select_and_remove :
    ∀ (st : St) (appName : String) (b : BinaryStruct) (t : String)
      (d : Option String) (spec : LinkTagSpec),
      alookup st.config.binaries appName = some b →
      b.selected = some t →
      alookup b.tags t = some (.link d spec) →
      driftedAt st.fs (destinationFor st b) spec.path = true →
      (∀ tagArg : Option String,
        (tagArg = none ∨ ∃ t2, tagArg = some t2 ∧ (alookup b.tags t2).isSome = true) →
        ∃ e, select st appName tagArg false = .error (e, st) ∧
          (e = .driftDetected (destinationFor st b) ∨
           e = .notASymlink (destinationFor st b))) ∧
      (∀ newSelected : Option String,
        (newSelected = none ∨
         ∃ t2, newSelected = some t2 ∧ (alookup b.tags t2).isSome = true) →
        ∃ e, remove st appName t newSelected = .error (e, st) ∧
          (e = .driftDetected (destinationFor st b) ∨
           e = .notASymlink (destinationFor st b))) := by
  intro st appName b t d spec hb hsel htag hdrift
  obtain ⟨e, ha, he⟩ := assert_drift st b t d spec hsel htag hdrift
  have hun : unselectCurrentTag st appName = .error (e, st) :=
    unselect_of_assert_some st appName b e hb ha
  have hcore : ∀ tagArg : Option String,
      selectCore st appName tagArg false = .error (e, st) := by
    intro tagArg
    simp [selectCore, hb, hsel, hun]
  have hsel2 : ∀ tagArg : Option String,
      (tagArg = none ∨ ∃ t2, tagArg = some t2 ∧ (alookup b.tags t2).isSome = true) →
      select st appName tagArg false = .error (e, st) := by
    intro tagArg hvalid
    rcases hvalid with h | ⟨t2, rfl, hsome⟩
    · subst h
      simpa [select, hb] using hcore none
    · obtain ⟨x, hx⟩ := Option.isSome_iff_exists.mp hsome
      simpa [select, hb, hx] using hcore (some t2)
  refine ⟨fun tagArg hvalid => ⟨e, hsel2 tagArg hvalid, he⟩, ?_⟩
  intro newSelected hvalid
  refine ⟨e, ?_, he⟩
  have hstep := hsel2 newSelected hvalid
  simp [remove, hb, htag, hsel, hstep]

/-- Witness for C3 at the concrete drifted state: both the non-forced
deselect and the remove of the selected tag fail with DRIFT DETECTED. -/
theorem claim_C3_witness :
    (alookup stDrifted.config.binaries "app" = some binOneLink ∧
     driftedAt stDrifted.fs (destinationFor stDrifted binOneLink) "/p" = true) ∧
    (∃ e, select stDrifted "app" none false = .error (e, stDrifted) ∧
      (e = .driftDetected (destinationFor stDrifted binOneLink) ∨
       e = .notASymlink (destinationFor stDrifted binOneLink))) ∧
    (∃ e, remove stDrifted "app" "a" none = .error (e, stDrifted) ∧
      (e = .driftDetected (destinationFor stDrifted binOneLink) ∨
       e = .notASymlink (destinationFor stDrifted binOneLink))) :=
  ⟨⟨rfl, rfl⟩,
   (claim_C3_drift_blocks_select_and_remove stDrifted "app" binOneLink "a" none
      ⟨"/p", some false⟩ rfl rfl rfl rfl).1 none (Or.inl rfl),
   (claim_C3_drift_blocks_select_and_remove stDrifted "app" binOneLink "a" none
      ⟨"/p", some false⟩ rfl rfl rfl rfl).2 none (Or.inl rfl)⟩

/-! ## Claim C10 -/

/-- C10: deselecting a selected link tag that passes the drift check removes
the on-disk artifact only when the destination exists after following
symlinks.  A dangling symlink (target deleted) passes the drift check, is
not removed, and stays on disk while selected becomes None; a live artifact
is removed. -/
theorem claim_C10_unselect_respects_follow_exists :
    ∀ (st : St) (appName : String) (b : BinaryStruct) (t : String)
      (d : Option String) (spec : LinkTagSpec),
      alookup st.config.binaries appName = some b →
      b.selected = some t →
      alookup b.tags t = some (.link d spec) →
      alookup st.fs (destinationFor st b) = some (.symlink spec.path) →
      (alookup st.fs spec.path = none →
        select st appName none false =
          .ok { st with config :=
                  ⟨aset st.config.binaries appName { b with selected := none }⟩ }) ∧
      (∀ c m, alookup st.fs spec.path = some (.file c m) →
        select st appName none false =
          .ok { st with
                  fs := aerase st.fs (destinationFor st b),
                  config :=
                    ⟨aset st.config.binaries appName { b with selected := none }⟩ }) := by
  intro st appName b t d spec hb hsel htag hdest
  have hassert : assertSelectedOwnedReference st b = none := by
    simp [assertSelectedOwnedReference, hsel, htag, hdest]
  constructor
  · intro hdangling
    have hex : pexists st.fs (destinationFor st b) = false :=
      pexists_symlink_none hdest hdangling
    have hun : unselectCurrentTag st appName =
        .ok { st with config :=
                ⟨aset st.config.binaries appName { b with selected := none }⟩ } := by
      simp [unselectCurrentTag, hb, hassert, hex]
    simp [select, hb, selectCore, hsel, hun]
  · intro c m hfile
    have hex : pexists st.fs (destinationFor st b) = true :=
      pexists_symlink_file hdest hfile
    have hisl : isSymlinkFS st.fs (destinationFor st b) = true := by
      simp [isSymlinkFS, hdest]
    have hun : unselectCurrentTag st appName =
        .ok { st with
                fs := aerase st.fs (destinationFor st b),
                config :=
                  ⟨aset st.config.binaries appName { b with selected := none }⟩ } := by
      simp [unselectCurrentTag, hb, hassert, hex, hisl]
    simp [select, hb, selectCore, hsel, hun]

/-- Witness for C10 at a concrete dangling-symlink state: the unlink-style
select(None) succeeds, selected becomes None, and the filesystem (with the
dangling symlink at the destination) is untouched. -/
theorem claim_C10_witness :
    (alookup stDangling.fs "/bin/app" = some (.symlink "/p") ∧
     alookup stDangling.fs "/p" = none) ∧
    select stDangling "app" none false =
      .ok { stDangling with config :=
              ⟨aset stDangling.config.binaries "app"
                 { binOneLink with selected := none }⟩ } :=
  ⟨⟨rfl, rfl⟩,
   (claim_C10_unselect_respects_follow_exists stDangling "app" binOneLink "a" none
      ⟨"/p", some false⟩ rfl rfl rfl rfl).1 rfl⟩

/-! ## Claim C8 -/

/-- Lookup in the overlaid process environment: a tag env entry wins over the
inherited one, anything else falls through to the base environment. -/
theorem alookup_overlayEnv (base ovr : List (String × String)) (k : String)
    (hnd : NodupKeys ovr) :
    alookup (overlayEnv base ovr) k =
      match alookup ovr k with
      | some v => some v
      | none => alookup base k := by
  induction ovr generalizing base with
  | nil => simp [overlayEnv]
  | cons p rest ih =>
    have hnd1 : p.1 ∉ akeys rest ∧ NodupKeys rest := by
      have hx := hnd
      rw [NodupKeys, akeys_cons] at hx
      exact List.nodup_cons.mp hx
    have hstep : overlayEnv base (p :: rest) = overlayEnv (aset base p.1 p.2) rest := rfl
    rw [hstep, ih _ hnd1.2]
    by_cases hk : p.1 = k
    · subst hk
      have hnone : alookup rest p.1 = none := alookup_eq_none_of_not_mem_keys hnd1.1
      simp [hnone]
    · cases hr : alookup rest k <;>
        simp [hr, hk, alookup_aset_ne base p.1 p.2 k hk]

/-- C8: run spawns only when the selection references a command tag (a link
selection fails with the wrong-tag-kind error), the child argv is the shlex
tokenization of the stored command followed by the caller args verbatim, and
the child environment is the process environment overlaid by the tag env
entries, tag entries winning on collision. -/
theorem claim_C8_run_contract :
    ∀ (st : St) (osEnv : List (String × String)) (appName : String)
      (args : List String),
      (∀ spawn : SpawnCall, run st osEnv appName args = .ok spawn →
        ∃ b t d spec toks,
          alookup st.config.binaries appName = some b ∧
          b.selected = some t ∧
          alookup b.tags t = some (.command d spec) ∧
          shlexSplit spec.command = .ok toks ∧
          spawn.argv = toks ++ args ∧
          spawn.cwd = spec.working_directory ∧
          spawn.env = overlayEnv osEnv (spec.env.getD [])) ∧
      (∀ (b : BinaryStruct) (t : String) (d : Option String) (spec : LinkTagSpec),
        alookup st.config.binaries appName = some b →
        b.selected = some t → t ≠ "" →
        alookup b.tags t = some (.link d spec) →
        run st osEnv appName args = .error (.wrongTagKind b.name t)) ∧
      (∀ (ovr : List (String × String)) (k : String), NodupKeys ovr →
        alookup (overlayEnv osEnv ovr) k =
          match alookup ovr k with
          | some v => some v
          | none => alookup osEnv k) := by
  intro st osEnv appName args
  refine ⟨?_, ?_, fun ovr k h => alookup_overlayEnv osEnv ovr k h⟩
  · intro spawn h
    unfold run at h
    cases hb : alookup st.config.binaries appName with
    | none => rw [hb] at h; cases h
    | some b =>
      rw [hb] at h
      dsimp only at h
      cases hsel : b.selected with
      | none => rw [hsel] at h; cases h
      | some t =>
        rw [hsel] at h
        dsimp only at h
        by_cases ht : t = ""
        · rw [if_pos ht] at h; cases h
        · rw [if_neg ht] at h
          cases htag : alookup b.tags t with
          | none => rw [htag] at h; cases h
          | some tc =>
            rw [htag] at h
            cases tc with
            | link d spec => dsimp only at h; cases h
            | command d spec =>
              dsimp only at h
              cases hwd : spec.working_directory with
              | none =>
                rw [hwd] at h
                dsimp only at h
                cases hsh : shlexSplit spec.command with
                | error e => rw [hsh] at h; cases h
                | ok toks =>
                  rw [hsh] at h
                  dsimp only at h
                  cases h
                  exact ⟨b, t, d, spec, toks, rfl, hsel, htag, hsh, rfl,
                    by rw [hwd], rfl⟩
              | some wd =>
                rw [hwd] at h
                dsimp only at h
                by_cases hex : (!pexists st.fs wd) = true
                · rw [if_pos hex] at h; cases h
                · rw [if_neg hex] at h
                  dsimp only at h
                  cases hsh : shlexSplit spec.command with
                  | error e => rw [hsh] at h; cases h
                  | ok toks =>
                    rw [hsh] at h
                    dsimp only at h
                    cases h
                    exact ⟨b, t, d, spec, toks, rfl, hsel, htag, hsh, rfl,
                      by rw [hwd], rfl⟩
  · intro b t d spec hb hsel ht htag
    simp [run, hb, hsel, ht, htag]

/-- Witness for C8: the theorem applied at a concrete command-tag state (the
spawn exists with the tokenized argv and overlaid env), at a concrete
link-tag state (wrong tag kind), and at a concrete env collision. -/
theorem claim_C8_witness :
    (∃ b t d spec toks,
       alookup stCmd.config.binaries "app" = some b ∧
       b.selected = some t ∧
       alookup b.tags t = some (.command d spec) ∧
       shlexSplit spec.command = .ok toks ∧
       (⟨["echo", "hi", "x"], none,
         [("PATH", "/override"), ("K", "V")]⟩ : SpawnCall).argv = toks ++ ["x"] ∧
       (⟨["echo", "hi", "x"], none,
         [("PATH", "/override"), ("K", "V")]⟩ : SpawnCall).cwd =
           spec.working_directory ∧
       (⟨["echo", "hi", "x"], none,
         [("PATH", "/override"), ("K", "V")]⟩ : SpawnCall).env =
           overlayEnv [("PATH", "/usr/bin")] (spec.env.getD [])) ∧
    run stDrifted [] "app" [] = .error (.wrongTagKind "app" "a") ∧
    alookup (overlayEnv [("PATH", "/usr/bin")] [("K", "V"), ("PATH", "/override")])
      "PATH" = some "/override" := by
  refine ⟨(claim_C8_run_contract stCmd [("PATH", "/usr/bin")] "app" ["x"]).1
      ⟨["echo", "hi", "x"], none, [("PATH", "/override"), ("K", "V")]⟩ rfl,
    (claim_C8_run_contract stDrifted [] "app" []).2.1 binOneLink "a" none
      ⟨"/p", some false⟩ rfl rfl (by decide) rfl, ?_⟩
  rw [(claim_C8_run_contract stCmd [("PATH", "/usr/bin")] "app" []).2.2
    [("K", "V"), ("PATH", "/override")] "PATH" (by decide)]
  rfl

/-! ## Claim C5 -/

/-- C5: tracking a path already held by a link tag of the same application
fails with the already-exists error when force is false, with the carried
state untouched; with force the pre-existing holder is removed and the newly
tracked tag is inserted and becomes selected.  The hypotheses describe the
state right after the first track of that path: the holder is the selection,
its artifact is in place, and the tracked file exists. -/
theorem claim_C5_dedup_and_force_override :
    ∀ (st : St) (appName : String) (b : BinaryStruct) (t0 t1 : String)
      (d d1 : Option String) (P : FPath) (ic : Option Bool)
      (content : String) (mode : Nat) (gen : String),
      alookup st.config.binaries appName = some b →
      b.tags = [(t0, .link d ⟨P, ic⟩)] →
      b.selected = some t0 →
      alookup st.fs (destinationFor st b) = some (.symlink P) →
      alookup st.fs P = some (.file content mode) →
      t1 ≠ t0 →
      trackPath st appName P (some t1) d1 false false gen =
        .error (.pathAlreadyTracked P t0 appName, st) ∧
      (∃ st2 b2, trackPath st appName P (some t1) d1 false true gen = .ok st2 ∧
        alookup st2.config.binaries appName = some b2 ∧
        alookup b2.tags t0 = none ∧
        alookup b2.tags t1 = some (.link d1 ⟨P, some false⟩) ∧
        b2.selected = some t1) := by
  intro st appName b t0 t1 d d1 P ic content mode gen hb htags hsel hdest hP ht1
  have hpex : pexists st.fs P = true := pexists_file hP
  have hlook1 : (alookup st.config.binaries appName).isNone = false := by
    rw [hb]; rfl
  have htagt1 : alookup b.tags t1 = none := by
    rw [htags]; simp [alookup, Ne.symm ht1]
  have htagt0 : alookup b.tags t0 = some (.link d ⟨P, ic⟩) := by
    rw [htags]; simp [alookup]
  have hassert : assertSelectedOwnedReference st b = none := by
    simp [assertSelectedOwnedReference, hsel, htagt0, hdest]
  have hex : pexists st.fs (destinationFor st b) = true :=
    pexists_symlink_file hdest hP
  have hisl : isSymlinkFS st.fs (destinationFor st b) = true := by
    simp [isSymlinkFS, hdest]
  have hun : unselectCurrentTag st appName =
      .ok { st with
              fs := aerase st.fs (destinationFor st b),
              config := ⟨aset st.config.binaries appName
                           { b with selected := none }⟩ } := by
    simp [unselectCurrentTag, hb, hassert, hex, hisl]
  have hselnone : select st appName none false =
      .ok { st with
              fs := aerase st.fs (destinationFor st b),
              config := ⟨aset st.config.binaries appName
                           { b with selected := none }⟩ } := by
    simp [select, hb, selectCore, hsel, hun]
  have hremove : remove st appName t0 none =
      .ok { st with
              fs := aerase st.fs (destinationFor st b),
              config := ⟨aset st.config.binaries appName
                           { b with tags := [], selected := none }⟩ } := by
    simp [remove, hb, htagt0, hsel, hselnone, alookup_aset_self, htags,
      alookup, aerase, List.filter, aset_aset]
  have hdedupF : dedupPaths st appName P true =
      .ok { st with
              fs := aerase st.fs (destinationFor st b),
              config := ⟨aset st.config.binaries appName
                           { b with tags := [], selected := none }⟩ } := by
    simp [dedupPaths, hb, htags, dedupGo, hremove]
  have hdedupE : dedupPaths st appName P false =
      .error (.pathAlreadyTracked P t0 appName, st) := by
    simp [dedupPaths, hb, htags, dedupGo]
  constructor
  · simp [trackPath, hpex, hlook1, hb, htagt1, hdedupE]
  · refine ⟨{ st with
        fs := aset (aerase st.fs (destinationFor st b)) (destinationFor st b)
                (.symlink P),
        config := ⟨aset st.config.binaries appName
          ⟨b.name, [(t1, .link d1 ⟨P, some false⟩)], some t1⟩⟩ },
      ⟨b.name, [(t1, .link d1 ⟨P, some false⟩)], some t1⟩, ?_, ?_, ?_, ?_, ?_⟩
    · simp [trackPath, hpex, hlook1, hb, htagt1, hdedupF, select, selectCore,
        selectTag, alookup_aset_self, aset_aset, destinationFor, lexistsFS,
        alookup_aerase_self, alookup, aset]
    · exact alookup_aset_self st.config.binaries appName _
    · simp [alookup, ht1]
    · simp [alookup]
    · rfl

/-- Witness for C5: the double-track of /p fails without force and succeeds
with force, the new tag t1 replacing t0 as the selection. -/
theorem claim_C5_witness :
    (alookup stHolder.config.binaries "app" = some binHolder ∧
     alookup stHolder.fs "/p" = some (.file "x" 0o755) ∧
     ("t1" : String) ≠ "t0") ∧
    trackPath stHolder "app" "/p" (some "t1") none false false "gen" =
      .error (.pathAlreadyTracked "/p" "t0" "app", stHolder) ∧
    (∃ st2 b2,
       trackPath stHolder "app" "/p" (some "t1") none false true "gen" = .ok st2 ∧
       alookup st2.config.binaries "app" = some b2 ∧
       alookup b2.tags "t0" = none ∧
       alookup b2.tags "t1" = some (.link none ⟨"/p", some false⟩) ∧
       b2.selected = some "t1") :=
  ⟨⟨rfl, rfl, by decide⟩,
   (claim_C5_dedup_and_force_override stHolder "app" binHolder "t0" "t1" none none
      "/p" (some false) "x" 0o755 "gen" rfl rfl rfl rfl rfl (by decide)).1,
   (claim_C5_dedup_and_force_override stHolder "app" binHolder "t0" "t1" none none
      "/p" (some false) "x" 0o755 "gen" rfl rfl rfl rfl rfl (by decide)).2⟩

/-! ## Claim C9 counterexample -/

/-- C9 fails as stated for an empty file: yaml.safe_load returns None and
AppConfig(**None) raises TypeError, which is not a pydantic ValidationError
(and is not converted to the RichValueError the config property produces for
validation failures). -/
theorem claim_C9_counterexample_empty_file :
    loadConfigFile (some (.ok none)) = .error .typeError ∧
    (match loadConfigFile (some (.ok none)) with
     | .error (.validationError _) => False
     | _ => True) :=
  ⟨rfl, trivial⟩

/-- C9 (amended): loading a truncated, empty or otherwise malformed file
always fails — with a pydantic ValidationError when the parsed document is a
mapping violating the schema, with a TypeError when the file is empty or
holds a non-mapping document, and with a YAML parse error when the text is
unparseable; a file is accepted only when it parses to a schema-valid
mapping, so an empty or corrupt file is never accepted as a valid (empty)
configuration document. -/
theorem claim_C9_amended_load_rejects_corrupt :
    (loadConfigFile (some (.ok none)) = .error .typeError) ∧
    (∀ v : JVal, (∀ f, v ≠ .obj f) →
       loadConfigFile (some (.ok (some v))) = .error .typeError) ∧
    (∀ f e, parseAppConfigFields f = .error e →
       loadConfigFile (some (.ok (some (.obj f)))) = .error (.validationError e)) ∧
    (∀ r, loadConfigFile (some (.error ())) ≠ .ok r) ∧
    (∀ (file : Except Unit (Option JVal)) (c : AppConfig) (existed : Bool),
       loadConfigFile (some file) = .ok (c, existed) →
       existed = true ∧
       ∃ f, file = .ok (some (.obj f)) ∧ parseAppConfigFields f = .ok c) := by
  refine ⟨rfl, ?_, ?_, ?_, ?_⟩
  · intro v hv
    cases v with
    | obj f => exact absurd rfl (hv f)
    | str sv => rfl
    | bool bv => rfl
    | null => rfl
    | arr xs => rfl
  · intro f e h
    simp [loadConfigFile, h]
  · intro r h
    simp [loadConfigFile] at h
  · intro file c existed h
    cases file with
    | error u => cases h
    | ok ov =>
      cases ov with
      | none => cases h
      | some v =>
        cases v with
        | obj f =>
          unfold loadConfigFile at h
          dsimp only at h
          cases hp : parseAppConfigFields f with
          | ok c2 =>
            rw [hp] at h
            dsimp only at h
            cases h
            exact ⟨rfl, f, rfl, hp⟩
          | error e => rw [hp] at h; cases h
        | str sv => cases h
        | bool bv => cases h
        | null => cases h
        | arr xs => cases h

/-- Witness for C9 (amended): a mapping with an unknown field fails with a
ValidationError via the theorem. -/
theorem claim_C9_amended_witness :
    parseAppConfigFields [("bogus", JVal.null)] =
      .error (.extraField "AppConfig" "extra") ∧
    loadConfigFile (some (.ok (some (.obj [("bogus", JVal.null)])))) =
      .error (.validationError (.extraField "AppConfig" "extra")) :=
  ⟨rfl, claim_C9_amended_load_rejects_corrupt.2.2.1 [("bogus", JVal.null)] _ rfl⟩

end Altb
